import Mathlib

/-!
Shallow embedding of the perpX rewards-ledger core (`server/db.ts`, the
DB-backed implementation) and proofs of the specification claims.

Modelling conventions, matching the source:
* The relational store is a `Store` record of lists (rows in insertion
  order).  `created_at` timestamps are a logical clock `tick` that grows
  with every points-history insert, so `ORDER BY created_at DESC LIMIT 1`
  over history rows is the last matching element of the list.
* MySQL compares `varchar` keys with its default case-insensitive
  collation, and the spec describes the store as keyed by the normalized
  (lower-cased) address; SQL-level equality (`eq(...)` in drizzle) is
  therefore modelled by `sqlEq`, case-insensitive string equality.
  JavaScript-level comparisons (`===`) are exact string equality.
* `nanoid(8).toUpperCase()` is modelled by `mkCode` applied to a counter
  `rng` held in the store: an opaque, fresh uppercase token.
* External HTTP calls are modelled by a `FetchResult` value (a status
  code, or a thrown network failure) supplied by the environment;
  sweeps take a whole response function.
* The `if (!db) return ...` guards (database unreachable) perform no
  writes and are not modelled; likewise the Discord bot-token/guild-id
  configuration is taken as present (when missing, the source returns
  without contacting the adapter and without writing).
-/

/-- Lower-casing of a string, character by character (the model of
JavaScript `.toLowerCase()` and of collation folding; written over the
character list so that it evaluates inside the kernel). -/
def lowerStr (s : String) : String := String.mk (s.data.map Char.toLower)

/-- Upper-casing of a string, character by character (the model of
JavaScript `.toUpperCase()`). -/
def upperStr (s : String) : String := String.mk (s.data.map Char.toUpper)

/-- SQL comparison of two varchar keys under the default case-insensitive
collation (the spec keys profiles by the lower-cased address). -/
def sqlEq (a b : String) : Bool := lowerStr a == lowerStr b

/-- One row of `wallet_profiles`. -/
structure Profile where
  walletAddress : String
  chainType : String
  totalPoints : Int
  connectBonusClaimed : Bool
  xConnected : Bool
  xUsername : Option String
  xConnectedAt : Option Nat
  discordConnected : Bool
  discordUsername : Option String
  discordId : Option String
  discordConnectedAt : Option Nat
  discordVerified : Bool
  discordVerifiedAt : Option Nat
  referralCode : Option String
  referredBy : Option String
  referralCount : Int
  referralPointsEarned : Int
  createdAt : Nat
  updatedAt : Nat
  deriving Repr, DecidableEq

/-- One row of `points_history` (append-only ledger). -/
structure HistEntry where
  walletAddress : String
  transactionType : String
  pointsChange : Int
  balanceAfter : Int
  description : Option String
  createdAt : Nat
  deriving Repr, DecidableEq

/-- One row of `task_completions`. -/
structure TaskRow where
  id : Nat
  walletAddress : String
  taskType : String
  pointsAwarded : Int
  metadata : Option String
  completionDate : Option String
  status : String
  completedAt : Nat
  revokedAt : Option Nat
  deriving Repr, DecidableEq

/-- One row of `referrals`. -/
structure ReferralRow where
  id : Nat
  referrerWallet : String
  referredWallet : String
  referralCode : String
  referrerPoints : Int
  referredPoints : Int
  referrerClaimed : Bool
  referredClaimed : Bool
  createdAt : Nat
  claimedAt : Option Nat
  deriving Repr, DecidableEq

/-- The relational store: every table as a list of rows in insertion
order, plus the auto-increment counters, the logical clock and the
random-token counter. -/
structure Store where
  profiles : List Profile
  history : List HistEntry
  completions : List TaskRow
  referrals : List ReferralRow
  nextTaskId : Nat
  nextReferralId : Nat
  tick : Nat
  rng : Nat
  deriving Repr, DecidableEq

/-- The empty database. -/
def initStore : Store :=
  { profiles := [], history := [], completions := [], referrals := []
    nextTaskId := 1, nextReferralId := 1, tick := 0, rng := 0 }

/-- Model of `nanoid(8).toUpperCase()`: a fresh opaque uppercase token. -/
def mkCode (n : Nat) : String := "REFC" ++ toString n

/-- Result value returned by the mutating operations (success flag,
message, optional points payload). -/
structure OpResult where
  success : Bool
  message : String
  points : Option Int := none
  deriving Repr, DecidableEq

/-- Outcome of one external HTTP call: a response with a status code, or
a thrown network failure (timeout, connection error). -/
inductive FetchResult where
  | response (status : Nat)
  | failure
  deriving Repr, DecidableEq

/-- Whether a fetch `Response.ok` holds (status in the 200 range). -/
def statusOk (status : Nat) : Bool := 200 ≤ status && status < 300

/-- SELECT ... FROM wallet_profiles WHERE wallet_address = w LIMIT 1
(`getWalletProfile`). -/
def findProfile (s : Store) (w : String) : Option Profile :=
  s.profiles.find? (fun p => sqlEq p.walletAddress w)

/-- UPDATE wallet_profiles SET ... WHERE wallet_address = w. -/
def updProfile (s : Store) (w : String) (f : Profile → Profile) : Store :=
  { s with profiles := s.profiles.map (fun p => if sqlEq p.walletAddress w then f p else p) }

/-- Source `getOrCreateWalletProfile`: return the existing row, else
insert a blank profile (zero balance, nothing connected, no code). -/
def getOrCreateWalletProfile (s : Store) (w chain : String) : Store × Profile :=
  match findProfile s w with
  | some p => (s, p)
  | none =>
    let p : Profile :=
      { walletAddress := w, chainType := chain, totalPoints := 0
        connectBonusClaimed := false
        xConnected := false, xUsername := none, xConnectedAt := none
        discordConnected := false, discordUsername := none, discordId := none
        discordConnectedAt := none, discordVerified := false, discordVerifiedAt := none
        referralCode := none, referredBy := none
        referralCount := 0, referralPointsEarned := 0
        createdAt := s.tick, updatedAt := s.tick }
    ({ s with profiles := s.profiles ++ [p] }, p)

/-- Source `addPoints`: read the profile (no write when absent), set the
new total on the profile row and append one history row carrying the
post-mutation balance. -/
def addPoints (s : Store) (w : String) (points : Int) (ttype : String)
    (descr : Option String) : Store × Option Int :=
  match findProfile s w with
  | none => (s, none)
  | some p =>
    let newTotal := p.totalPoints + points
    let s := updProfile s w (fun q => { q with totalPoints := newTotal, updatedAt := s.tick })
    let entry : HistEntry :=
      { walletAddress := w, transactionType := ttype, pointsChange := points
        balanceAfter := newTotal, description := descr, createdAt := s.tick }
    ({ s with history := s.history ++ [entry], tick := s.tick + 1 }, some newTotal)

/-- Source `getOriginalBonusPoints`: the most recent history row of the
given type for the wallet (history rows are appended in `created_at`
order, so ORDER BY created_at DESC LIMIT 1 is the last matching list
element); its amount when positive, else the fallback. -/
def getOriginalBonusPoints (s : Store) (w ttype : String) (fallback : Int) : Int :=
  match (s.history.filter
      (fun h => sqlEq h.walletAddress w && sqlEq h.transactionType ttype)).getLast? with
  | some record => if record.pointsChange > 0 then record.pointsChange else fallback
  | none => fallback

/-- Source `hasCompletedTask`: an active completion of the type (and
date when given) exists for the wallet. -/
def hasCompletedTask (s : Store) (w ttype : String) (date : Option String) : Bool :=
  match date with
  | none =>
    (s.completions.find? (fun t =>
      sqlEq t.walletAddress w && sqlEq t.taskType ttype && sqlEq t.status "active")).isSome
  | some d =>
    (s.completions.find? (fun t =>
      sqlEq t.walletAddress w && sqlEq t.taskType ttype &&
      (match t.completionDate with | some cd => sqlEq cd d | none => false) &&
      sqlEq t.status "active")).isSome

/-- Source `completeTask`: insert one task-completion row (status
defaults to active per the schema). -/
def completeTask (s : Store) (w ttype : String) (pointsAwarded : Int)
    (metadata : Option String) (completionDate : Option String) : Store :=
  let row : TaskRow :=
    { id := s.nextTaskId, walletAddress := w, taskType := ttype
      pointsAwarded := pointsAwarded, metadata := metadata
      completionDate := completionDate, status := "active"
      completedAt := s.tick, revokedAt := none }
  { s with completions := s.completions ++ [row], nextTaskId := s.nextTaskId + 1 }

/-- Source `claimConnectBonus`: once-only 300-point wallet-connect bonus. -/
def claimConnectBonus (s : Store) (w : String) : Store × OpResult :=
  match findProfile s w with
  | none => (s, { success := false, message := "Profile not found" })
  | some p =>
    if p.connectBonusClaimed then
      (s, { success := false, message := "Connect bonus already claimed" })
    else
      let s := updProfile s w (fun q => { q with connectBonusClaimed := true, updatedAt := s.tick })
      let s := (addPoints s w 300 "connect_bonus" (some "Wallet connection bonus")).1
      (s, { success := true, message := "Earned 300 points for connecting wallet!", points := some 300 })

/-- Source `maybeGenerateReferralCode`: issue a fresh code when X and
Discord are connected, Discord is verified, and no code exists yet. -/
def maybeGenerateReferralCode (s : Store) (w : String) : Store :=
  match findProfile s w with
  | none => s
  | some p =>
    if p.xConnected && p.discordConnected && p.discordVerified && p.referralCode.isNone then
      let s := updProfile s w (fun q => { q with referralCode := some (mkCode s.rng), updatedAt := s.tick })
      { s with rng := s.rng + 1 }
    else s

/-- Source `claimReferralBonus`: award 50 to each side, bump the
referrer aggregates incrementally, then mark the row claimed. -/
def claimReferralBonus (s : Store) (referredWallet : String) : Store × OpResult :=
  match s.referrals.find? (fun r => sqlEq r.referredWallet referredWallet) with
  | none => (s, { success := false, message := "No referral found for this wallet" })
  | some referral =>
    if referral.referrerClaimed then
      (s, { success := false, message := "Referral bonus already claimed" })
    else
      let referrerBonus : Int := 50
      let referredBonus : Int := 50
      let s := (addPoints s referral.referrerWallet referrerBonus "referral_bonus"
        (some "Referral bonus for inviting")).1
      let s := (addPoints s referredWallet referredBonus "referral_bonus"
        (some "Welcome bonus for using referral code")).1
      let s :=
        match findProfile s referral.referrerWallet with
        | some rp =>
          updProfile s referral.referrerWallet (fun q =>
            { q with referralCount := rp.referralCount + 1
                     referralPointsEarned := rp.referralPointsEarned + referrerBonus
                     updatedAt := s.tick })
        | none => s
      let s := { s with referrals := s.referrals.map (fun r =>
        if r.id == referral.id then
          { r with referrerClaimed := true, referredClaimed := true
                   claimedAt := some s.tick
                   referrerPoints := referrerBonus, referredPoints := referredBonus }
        else r) }
      (s, { success := true, message := "Referral bonus claimed!" })

/-- Source `maybeClaimReferralBonus`: auto-claim when the wallet was
referred and its referral row is still unclaimed. -/
def maybeClaimReferralBonus (s : Store) (w : String) : Store :=
  match findProfile s w with
  | none => s
  | some p =>
    if p.referredBy.isSome then
      match s.referrals.find? (fun r => sqlEq r.referredWallet w) with
      | some referral =>
        if !referral.referrerClaimed then (claimReferralBonus s w).1 else s
      | none => s
    else s

/-- Source `connectXAccount`: +100, then the referral-code and
auto-claim side effects. -/
def connectXAccount (s : Store) (w xUsername : String) : Store × OpResult :=
  match findProfile s w with
  | none => (s, { success := false, message := "Profile not found" })
  | some p =>
    if p.xConnected then
      (s, { success := false, message := "X account already connected" })
    else
      let s := updProfile s w (fun q =>
        { q with xConnected := true, xUsername := some xUsername
                 xConnectedAt := some s.tick, updatedAt := s.tick })
      let s := (addPoints s w 100 "x_connect" (some ("Connected X account: @" ++ xUsername))).1
      let s := maybeGenerateReferralCode s w
      let s := maybeClaimReferralBonus s w
      (s, { success := true, message := "Earned 100 points for connecting X!", points := some 100 })

/-- Source `disconnectXAccount`: clear the X fields, then deduct the
historically granted x_connect amount (fallback 100). -/
def disconnectXAccount (s : Store) (w : String) : Store × OpResult :=
  match findProfile s w with
  | none => (s, { success := false, message := "Profile not found" })
  | some p =>
    if !p.xConnected then
      (s, { success := false, message := "X account not connected" })
    else
      let s := updProfile s w (fun q =>
        { q with xConnected := false, xUsername := none
                 xConnectedAt := none, updatedAt := s.tick })
      let originalBonus := getOriginalBonusPoints s w "x_connect" 100
      let s := (addPoints s w (-originalBonus) "x_disconnect"
        (some ("Disconnected X account (-" ++ toString originalBonus ++ "pt)"))).1
      (s, { success := true
            message := "X account disconnected. " ++ toString originalBonus ++ " points deducted." })

/-- Source `connectDiscordAccount`: +50, then the referral side effects. -/
def connectDiscordAccount (s : Store) (w discordUsername : String)
    (discordId : Option String) : Store × OpResult :=
  match findProfile s w with
  | none => (s, { success := false, message := "Profile not found" })
  | some p =>
    if p.discordConnected then
      (s, { success := false, message := "Discord account already connected" })
    else
      let s := updProfile s w (fun q =>
        { q with discordConnected := true, discordUsername := some discordUsername
                 discordId := discordId, discordConnectedAt := some s.tick
                 updatedAt := s.tick })
      let s := (addPoints s w 50 "discord_connect"
        (some ("Connected Discord: " ++ discordUsername))).1
      let s := maybeGenerateReferralCode s w
      let s := maybeClaimReferralBonus s w
      (s, { success := true, message := "Earned 50 points for connecting Discord!", points := some 50 })

/-- Source `disconnectDiscordAccount`: reset every Discord field
(including verify state), deduct the historical discord_connect amount,
and when the account was verified also deduct the historical
discord_verify amount in the same call. -/
def disconnectDiscordAccount (s : Store) (w : String) : Store × OpResult :=
  match findProfile s w with
  | none => (s, { success := false, message := "Profile not found" })
  | some p =>
    if !p.discordConnected then
      (s, { success := false, message := "Discord account not connected" })
    else
      let wasVerified := p.discordVerified
      let s := updProfile s w (fun q =>
        { q with discordConnected := false, discordUsername := none, discordId := none
                 discordConnectedAt := none, discordVerified := false
                 discordVerifiedAt := none, updatedAt := s.tick })
      let connectBonus := getOriginalBonusPoints s w "discord_connect" 50
      let s := (addPoints s w (-connectBonus) "discord_disconnect"
        (some ("Disconnected Discord account (-" ++ toString connectBonus ++ "pt)"))).1
      let totalDeducted := connectBonus
      let (s, totalDeducted) :=
        if wasVerified then
          let verifyBonus := getOriginalBonusPoints s w "discord_verify" 50
          let s := (addPoints s w (-verifyBonus) "discord_verify_revoked"
            (some ("Discord server verification revoked (-" ++ toString verifyBonus ++ "pt)"))).1
          (s, totalDeducted + verifyBonus)
        else (s, totalDeducted)
      (s, { success := true
            message := "Discord account disconnected. " ++ toString totalDeducted ++ " points deducted." })

/-- Source `verifyDiscordServer`: guarded membership verification; the
fetch outcome is supplied by the environment.  On a 200-range response
the wallet is marked verified, gains 50 points and triggers the referral
side effects; 404 is the distinguishable not-joined failure; every other
outcome fails without writing. -/
def verifyDiscordServer (s : Store) (w : String) (fetched : FetchResult) : Store × OpResult :=
  match findProfile s w with
  | none => (s, { success := false, message := "Profile not found" })
  | some p =>
    if !p.discordConnected then
      (s, { success := false, message := "Discord account must be connected first" })
    else if p.discordVerified then
      (s, { success := false, message := "Discord server already verified" })
    else if p.discordId.isNone then
      (s, { success := false, message := "Discord ID not found. Please reconnect your Discord account." })
    else
      match fetched with
      | .response status =>
        if status == 404 then
          (s, { success := false
                message := "You are not a member of the PerpX Discord server. Please join first and then try again." })
        else if !statusOk status then
          (s, { success := false, message := "Failed to verify Discord membership. Please try again later." })
        else
          let s := updProfile s w (fun q =>
            { q with discordVerified := true, discordVerifiedAt := some s.tick
                     updatedAt := s.tick })
          let s := (addPoints s w 50 "discord_verify"
            (some "Verified PerpX Discord server membership")).1
          let s := maybeGenerateReferralCode s w
          let s := maybeClaimReferralBonus s w
          (s, { success := true
                message := "Earned 50 points for verifying Discord server membership!"
                points := some 50 })
      | .failure =>
        (s, { success := false, message := "Failed to verify Discord membership. Please try again later." })

/-- Source `completeDailyPost`: once per UTC day, requires X connected,
records the completion (metadata is the raw tweet URL), awards 100, and
triggers the referral auto-claim for referred wallets. -/
def completeDailyPost (s : Store) (w : String) (tweetUrl : Option String)
    (today : String) : Store × OpResult :=
  match findProfile s w with
  | none => (s, { success := false, message := "Profile not found" })
  | some p =>
    if !p.xConnected then
      (s, { success := false, message := "X account must be connected first" })
    else if hasCompletedTask s w "daily_post" (some today) then
      (s, { success := false, message := "Daily post already completed today. Try again tomorrow!" })
    else
      let s := completeTask s w "daily_post" 100 tweetUrl (some today)
      let s := (addPoints s w 100 "daily_post" (some "Daily X post")).1
      let s :=
        if p.referredBy.isSome then
          match s.referrals.find? (fun r => sqlEq r.referredWallet w) with
          | some referral =>
            if !referral.referrerClaimed then (claimReferralBonus s w).1 else s
          | none => s
        else s
      (s, { success := true, message := "Earned 100 points for daily post!", points := some 100 })

/-- Source `applyReferralCode`: guards in order — already referred, code
lookup (upper-cased, SQL comparison), self-referral (strict JS string
equality), referrer eligibility at application time — then the insert
of an unclaimed referral row and the referredBy update. -/
def applyReferralCode (s : Store) (w referralCode : String) : Store × OpResult :=
  match findProfile s w with
  | none => (s, { success := false, message := "Profile not found" })
  | some profile =>
    if profile.referredBy.isSome then
      (s, { success := false, message := "You have already used a referral code" })
    else
      match s.profiles.find? (fun p =>
          match p.referralCode with
          | some c => sqlEq c (upperStr referralCode)
          | none => false) with
      | none => (s, { success := false, message := "Invalid referral code" })
      | some referrer =>
        if referrer.walletAddress == w then
          (s, { success := false, message := "You cannot use your own referral code" })
        else if !(referrer.xConnected && referrer.discordConnected && referrer.discordVerified) then
          (s, { success := false, message := "This referral code is currently inactive" })
        else
          let row : ReferralRow :=
            { id := s.nextReferralId
              referrerWallet := referrer.walletAddress, referredWallet := w
              referralCode := upperStr referralCode
              referrerPoints := 0, referredPoints := 0
              referrerClaimed := false, referredClaimed := false
              createdAt := s.tick, claimedAt := none }
          let s := { s with referrals := s.referrals ++ [row]
                            nextReferralId := s.nextReferralId + 1 }
          let s := updProfile s w (fun q =>
            { q with referredBy := some (upperStr referralCode), updatedAt := s.tick })
          (s, { success := true
                message := "Referral code applied! Complete your first task to receive bonus points." })

/-- Source `adjustUserPoints`: manual admin delta through the Points
Engine. -/
def adjustUserPoints (s : Store) (w : String) (pointsChange : Int)
    (reason : String) : Store × OpResult :=
  match findProfile s w with
  | none => (s, { success := false, message := "Profile not found" })
  | some _ =>
    let (s, newTotal) := addPoints s w pointsChange "admin_adjustment" (some reason)
    (s, { success := true, message := "Points adjusted", points := newTotal })

/-- Source `revokeTweetPoints`: mark the completion revoked (idempotency
guard on the stored status) and deduct the amount stored on that row. -/
def revokeTweetPoints (s : Store) (completionId : Nat) : Store × OpResult :=
  match s.completions.find? (fun t => t.id == completionId) with
  | none => (s, { success := false, message := "Task completion not found" })
  | some task =>
    if task.status == "revoked" then
      (s, { success := false, message := "Already revoked" })
    else
      let s := { s with completions := s.completions.map (fun t =>
        if t.id == completionId then { t with status := "revoked", revokedAt := some s.tick } else t) }
      let s := (addPoints s task.walletAddress (-task.pointsAwarded) "tweet_revoked"
        (some "Points revoked for deleted tweet")).1
      (s, { success := true, message := "Revoked points" })

/-- Source `checkUserDiscordMembership` (single-wallet reconciliation):
no-op unless verified with a stored Discord id; on a confirmed 404 the
wallet is unverified and the historically granted verify bonus
(fallback 50) is deducted; every other outcome changes nothing. -/
def checkUserDiscordMembership (s : Store) (w : String) (fetched : FetchResult) :
    Store × (Bool × Bool) :=
  match findProfile s w with
  | none => (s, (true, false))
  | some profile =>
    if !profile.discordVerified || profile.discordId.isNone then
      (s, (true, false))
    else
      match fetched with
      | .response status =>
        if status == 404 then
          let s := updProfile s w (fun q =>
            { q with discordVerified := false, discordVerifiedAt := none, updatedAt := s.tick })
          let verifyBonus := getOriginalBonusPoints s w "discord_verify" 50
          let s := (addPoints s w (-verifyBonus) "discord_verify_revoked"
            (some ("Discord server verification revoked - left server (-" ++
              toString verifyBonus ++ "pt)"))).1
          (s, (false, true))
        else
          (s, (true, false))
      | .failure => (s, (true, false))

/-- One iteration of the batch membership sweep of
`checkDiscordServerMemberships`: a confirmed 404 unverifies the wallet
and deducts a flat 50 points; a 200-range response does nothing; any
other response counts an error; a thrown fetch counts an error before
the check counter moves. -/
def membershipSweepStep (adapter : String → FetchResult)
    (acc : Store × Nat × Nat × Nat) (user : Profile) : Store × Nat × Nat × Nat :=
  let (s, checked, revoked, errors) := acc
  match user.discordId with
  | none => (s, checked, revoked, errors)
  | some did =>
    match adapter did with
    | .failure => (s, checked, revoked, errors + 1)
    | .response status =>
      let checked := checked + 1
      if status == 404 then
        let s := updProfile s user.walletAddress (fun q =>
          { q with discordVerified := false, discordVerifiedAt := none, updatedAt := s.tick })
        let s := (addPoints s user.walletAddress (-50) "discord_verify_revoked"
          (some "Discord server verification revoked (left server)")).1
        (s, checked, revoked + 1, errors)
      else if !statusOk status then
        (s, checked, revoked, errors + 1)
      else
        (s, checked, revoked, errors)

/-- Source `checkDiscordServerMemberships` (batch sweep): snapshot the
verified wallets with a stored Discord id, then run the per-user check
over the snapshot, aggregating counts. -/
def checkDiscordServerMemberships (s : Store) (adapter : String → FetchResult) :
    Store × Nat × Nat × Nat :=
  let verifiedUsers := s.profiles.filter (fun p => p.discordVerified && p.discordId.isSome)
  verifiedUsers.foldl (membershipSweepStep adapter) (s, 0, 0, 0)

/-- Source `checkTweetExists`: true on a 200-range response, false only
on 404 or 403, true on every other status and on a thrown fetch. -/
def checkTweetExists (fetched : FetchResult) : Bool :=
  match fetched with
  | .response status =>
    if statusOk status then true
    else if status == 404 || status == 403 then false
    else true
  | .failure => true

/-- Source `getActiveTweetCompletions`: active daily_post completions
with metadata, optionally scoped to one wallet, newest first, keeping
only rows whose metadata is an http URL. -/
def getActiveTweetCompletions (s : Store) (walletAddress : Option String) : List TaskRow :=
  let conditions := fun (t : TaskRow) =>
    sqlEq t.taskType "daily_post" && sqlEq t.status "active" && t.metadata.isSome &&
    (match walletAddress with | some w => sqlEq t.walletAddress w | none => true)
  ((s.completions.filter conditions).reverse).filter (fun t =>
    match t.metadata with
    | some m => m.startsWith "http"
    | none => false)

/-- One iteration of the tweet sweeps: look the URL up through
`checkTweetExists` and revoke through `revokeTweetPoints` when the
tweet is confirmed gone. -/
def tweetSweepStep (tweetFetch : String → FetchResult)
    (acc : Store × Nat × Nat) (completion : TaskRow) : Store × Nat × Nat :=
  let (s, checked, revoked) := acc
  match completion.metadata with
  | none => (s, checked, revoked)
  | some url =>
    let checked := checked + 1
    if !checkTweetExists (tweetFetch url) then
      let (s, result) := revokeTweetPoints s completion.id
      if result.success then (s, checked, revoked + 1) else (s, checked, revoked)
    else (s, checked, revoked)

/-- Source `checkAndRevokeDeletedTweets`: sweep one wallet.s active
tweet completions. -/
def checkAndRevokeDeletedTweets (s : Store) (walletAddress : String)
    (tweetFetch : String → FetchResult) : Store × Nat × Nat :=
  (getActiveTweetCompletions s (some walletAddress)).foldl (tweetSweepStep tweetFetch) (s, 0, 0)

/-- Source `cronCheckAllTweets`: sweep every active tweet completion. -/
def cronCheckAllTweets (s : Store) (tweetFetch : String → FetchResult) : Store × Nat × Nat :=
  (getActiveTweetCompletions s none).foldl (tweetSweepStep tweetFetch) (s, 0, 0)

/-- The core operations of the system, with every environment input
(clock day string, fetch outcomes, adapter response functions) carried
as data of the operation. -/
inductive Op where
  | getOrCreateProfile (w chain : String)
  | claimConnectBonus (w : String)
  | connectX (w xUsername : String)
  | disconnectX (w : String)
  | connectDiscord (w discordUsername : String) (discordId : Option String)
  | disconnectDiscord (w : String)
  | verifyDiscord (w : String) (fetched : FetchResult)
  | completeDailyPost (w : String) (tweetUrl : Option String) (today : String)
  | applyReferral (w code : String)
  | claimReferral (w : String)
  | revokeTweet (completionId : Nat)
  | adjustPoints (w : String) (delta : Int) (reason : String)
  | checkMembership (w : String) (fetched : FetchResult)
  | sweepMemberships (adapter : String → FetchResult)
  | sweepTweets (w : String) (tweetFetch : String → FetchResult)
  | cronTweets (tweetFetch : String → FetchResult)

/-- Interpret one operation on the store. -/
def runStep (s : Store) (op : Op) : Store :=
  match op with
  | .getOrCreateProfile w chain => (getOrCreateWalletProfile s w chain).1
  | .claimConnectBonus w => (claimConnectBonus s w).1
  | .connectX w u => (connectXAccount s w u).1
  | .disconnectX w => (disconnectXAccount s w).1
  | .connectDiscord w u did => (connectDiscordAccount s w u did).1
  | .disconnectDiscord w => (disconnectDiscordAccount s w).1
  | .verifyDiscord w fr => (verifyDiscordServer s w fr).1
  | .completeDailyPost w url today => (completeDailyPost s w url today).1
  | .applyReferral w code => (applyReferralCode s w code).1
  | .claimReferral w => (claimReferralBonus s w).1
  | .revokeTweet id => (revokeTweetPoints s id).1
  | .adjustPoints w delta reason => (adjustUserPoints s w delta reason).1
  | .checkMembership w fr => (checkUserDiscordMembership s w fr).1
  | .sweepMemberships adapter => (checkDiscordServerMemberships s adapter).1
  | .sweepTweets w tf => (checkAndRevokeDeletedTweets s w tf).1
  | .cronTweets tf => (cronCheckAllTweets s tf).1

/-- Run a sequence of operations from the empty database. -/
def runOps (ops : List Op) : Store := ops.foldl runStep initStore

/-! ### Ledger invariant -/

/-- Sum of the point deltas of the history rows belonging to a wallet. -/
def histSumL (l : List HistEntry) (w : String) : Int :=
  ((l.filter (fun h => sqlEq h.walletAddress w)).map (fun h => h.pointsChange)).sum

/-- Sum of `pointsChange` over the PointsHistory entries of a wallet. -/
def histSum (s : Store) (w : String) : Int := histSumL s.history w

/-- The unique-constraint on `wallet_address`: no two profile rows share
a key. -/
def profilesDistinct (s : Store) : Prop :=
  s.profiles.Pairwise (fun p q => sqlEq p.walletAddress q.walletAddress = false)

/-- Every history row belongs to some existing profile (profiles are
never deleted and history is only written through the Points Engine). -/
def histCovered (s : Store) : Prop :=
  ∀ h ∈ s.history, ∃ p ∈ s.profiles, sqlEq h.walletAddress p.walletAddress = true

/-- The ledger identity: every profile total equals the sum of its
history deltas. -/
def ledgerOk (s : Store) : Prop :=
  ∀ p ∈ s.profiles, p.totalPoints = histSumL s.history p.walletAddress

/-- Store well-formedness carried through every operation. -/
def WF (s : Store) : Prop := profilesDistinct s ∧ histCovered s ∧ ledgerOk s

theorem sqlEq_iff {a b : String} : sqlEq a b = true ↔ lowerStr a = lowerStr b := by
  simp [sqlEq]

theorem sqlEq_symm (a b : String) : sqlEq a b = sqlEq b a := by
  unfold sqlEq
  rcases eq_or_ne (lowerStr a) (lowerStr b) with h | h
  · simp [h]
  · simp [h, Ne.symm h]

theorem sqlEq_trans {a b c : String} (h1 : sqlEq a b = true) (h2 : sqlEq b c = true) :
    sqlEq a c = true :=
  sqlEq_iff.mpr ((sqlEq_iff.mp h1).trans (sqlEq_iff.mp h2))

theorem histSumL_append (l₁ l₂ : List HistEntry) (w : String) :
    histSumL (l₁ ++ l₂) w = histSumL l₁ w + histSumL l₂ w := by
  simp [histSumL, List.filter_append]

theorem histSumL_single (e : HistEntry) (w : String) :
    histSumL [e] w = if sqlEq e.walletAddress w = true then e.pointsChange else 0 := by
  by_cases h : sqlEq e.walletAddress w = true <;> simp [histSumL, h]

/-- Under the unique-key constraint, the row found for a key is the only
row matching that key. -/
theorem find_match_unique {l : List Profile} {w : String} {p₀ : Profile}
    (hd : l.Pairwise (fun p q => sqlEq p.walletAddress q.walletAddress = false))
    (hf : l.find? (fun p => sqlEq p.walletAddress w) = some p₀) :
    ∀ q ∈ l, sqlEq q.walletAddress w = true → q = p₀ := by
  induction l with
  | nil => simp at hf
  | cons a t ih =>
    obtain ⟨ha, ht⟩ := List.pairwise_cons.mp hd
    intro q hq hqw
    by_cases hc : sqlEq a.walletAddress w = true
    · simp only [List.find?_cons, hc] at hf
      obtain rfl : a = p₀ := Option.some.inj hf
      rcases List.mem_cons.mp hq with rfl | hq'
      · rfl
      · exact absurd (sqlEq_trans hc ((sqlEq_symm q.walletAddress w ▸ hqw)))
          (by simp [ha q hq'])
    · have hc' : sqlEq a.walletAddress w = false := by simpa using hc
      simp only [List.find?_cons, hc'] at hf
      rcases List.mem_cons.mp hq with rfl | hq'
      · exact absurd hqw hc
      · exact ih ht hf q hq' hqw

/-- Well-formedness only inspects the profile and history tables. -/
theorem WF_congr {s s' : Store} (hp : s'.profiles = s.profiles)
    (hh : s'.history = s.history) (h : WF s) : WF s' := by
  obtain ⟨h1, h2, h3⟩ := h
  exact ⟨by rw [profilesDistinct, hp]; exact h1,
         by rw [histCovered, hp, hh]; exact h2,
         by rw [ledgerOk, hp, hh]; exact h3⟩

/-- A profile update that keeps the key and the balance preserves
well-formedness. -/
theorem updProfile_WF (s : Store) (w : String) (f : Profile → Profile)
    (haddr : ∀ q, (f q).walletAddress = q.walletAddress)
    (hpts : ∀ q, (f q).totalPoints = q.totalPoints)
    (h : WF s) : WF (updProfile s w f) := by
  obtain ⟨h1, h2, h3⟩ := h
  set g := fun p : Profile => if sqlEq p.walletAddress w = true then f p else p with hg
  have hga : ∀ q, (g q).walletAddress = q.walletAddress := by
    intro q
    by_cases hc : sqlEq q.walletAddress w = true <;> simp [hg, hc, haddr]
  have hgp : ∀ q, (g q).totalPoints = q.totalPoints := by
    intro q
    by_cases hc : sqlEq q.walletAddress w = true <;> simp [hg, hc, hpts]
  have hprof : (updProfile s w f).profiles = s.profiles.map g := rfl
  have hhist : (updProfile s w f).history = s.history := rfl
  refine ⟨?_, ?_, ?_⟩
  · rw [profilesDistinct, hprof, List.pairwise_map]
    exact h1.imp (fun {p q} hpq => by rw [hga, hga]; exact hpq)
  · intro e he
    rw [hhist] at he
    obtain ⟨p, hp, hpe⟩ := h2 e he
    exact ⟨g p, by rw [hprof]; exact List.mem_map_of_mem g hp, by rw [hga]; exact hpe⟩
  · intro p' hp'
    rw [ledgerOk] at h3
    rw [hprof] at hp'
    obtain ⟨q, hq, rfl⟩ := List.mem_map.mp hp'
    rw [hgp, hga, hhist]
    exact h3 q hq

/-- The Points Engine preserves well-formedness: the profile update and
the history append change the balance and the per-wallet history sum by
the same delta. -/
theorem addPoints_WF (s : Store) (w : String) (pts : Int) (t : String) (d : Option String)
    (h : WF s) : WF (addPoints s w pts t d).1 := by
  obtain ⟨h1, h2, h3⟩ := h
  unfold addPoints
  cases hf : findProfile s w with
  | none => exact ⟨h1, h2, h3⟩
  | some p₀ =>
    have hf' : s.profiles.find? (fun p => sqlEq p.walletAddress w) = some p₀ := hf
    have hp₀mem : p₀ ∈ s.profiles := List.mem_of_find?_eq_some hf'
    have hp₀w : sqlEq p₀.walletAddress w = true := by
      have := List.find?_some hf'
      simpa using this
    refine ⟨?_, ?_, ?_⟩
    · simp only [profilesDistinct, updProfile, List.pairwise_map]
      refine h1.imp (fun {p q} hpq => ?_)
      by_cases hc : sqlEq p.walletAddress w = true <;>
        by_cases hc' : sqlEq q.walletAddress w = true <;>
          simpa [hc, hc'] using hpq
    · intro e he
      simp only [updProfile] at he ⊢
      rcases List.mem_append.mp he with he' | he'
      · obtain ⟨p, hp, hpe⟩ := h2 e he'
        refine ⟨if sqlEq p.walletAddress w = true then
            { p with totalPoints := p₀.totalPoints + pts, updatedAt := s.tick } else p,
          List.mem_map_of_mem _ hp, ?_⟩
        by_cases hc : sqlEq p.walletAddress w = true <;> simp [hc, hpe]
      · have he₂ : e = ⟨w, t, pts, p₀.totalPoints + pts, d, s.tick⟩ := by
          simpa using he'
        subst he₂
        refine ⟨{ p₀ with totalPoints := p₀.totalPoints + pts, updatedAt := s.tick }, ?_, ?_⟩
        · have := List.mem_map_of_mem
            (fun p => if sqlEq p.walletAddress w = true then
              { p with totalPoints := p₀.totalPoints + pts, updatedAt := s.tick } else p) hp₀mem
          simpa [hp₀w] using this
        · simpa using (sqlEq_symm w p₀.walletAddress).trans hp₀w
    · intro p' hp'
      simp only [updProfile] at hp'
      obtain ⟨q, hq, rfl⟩ := List.mem_map.mp hp'
      show _ = histSumL (s.history ++ [_]) _
      rw [histSumL_append, histSumL_single]
      by_cases hc : sqlEq q.walletAddress w = true
      · obtain rfl : q = p₀ := find_match_unique h1 hf q hq hc
        have hsym : sqlEq w q.walletAddress = true := (sqlEq_symm w q.walletAddress).trans hc
        simp [hc, hsym, ← h3 q hq]
      · have hsym : sqlEq w q.walletAddress = false := by
          rw [sqlEq_symm]; simpa using hc
        simp [hc, hsym, ← h3 q hq]

/-- Inserting a blank profile for an unknown key preserves
well-formedness: the new row starts at zero and owns no history. -/
theorem getOrCreateWalletProfile_WF (s : Store) (w chain : String)
    (h : WF s) : WF (getOrCreateWalletProfile s w chain).1 := by
  obtain ⟨h1, h2, h3⟩ := h
  unfold getOrCreateWalletProfile
  cases hf : findProfile s w with
  | some p => exact ⟨h1, h2, h3⟩
  | none =>
    have hnone : ∀ q ∈ s.profiles, ¬ sqlEq q.walletAddress w = true := by
      intro q hq
      exact List.find?_eq_none.mp hf q hq
    refine ⟨?_, ?_, ?_⟩
    · simp only [profilesDistinct, List.pairwise_append]
      refine ⟨h1, List.pairwise_singleton _ _, ?_⟩
      intro a ha b hb
      simp only [List.mem_singleton] at hb
      subst hb
      simpa using hnone a ha
    · intro e he
      obtain ⟨p, hp, hpe⟩ := h2 e he
      exact ⟨p, List.mem_append_left _ hp, hpe⟩
    · intro p' hp'
      rcases List.mem_append.mp hp' with hp'' | hp''
      · exact h3 p' hp''
      · simp only [List.mem_singleton] at hp''
        subst hp''
        show (0 : Int) = histSumL s.history w
        have hempty : s.history.filter (fun h => sqlEq h.walletAddress w) = [] := by
          apply List.filter_eq_nil_iff.mpr
          intro e he
          intro habs
          obtain ⟨p, hp, hpe⟩ := h2 e he
          exact hnone p hp (sqlEq_trans ((sqlEq_symm p.walletAddress e.walletAddress).trans hpe) habs)
        simp [histSumL, hempty]

theorem maybeGenerateReferralCode_WF (s : Store) (w : String) (h : WF s) :
    WF (maybeGenerateReferralCode s w) := by
  unfold maybeGenerateReferralCode
  split
  · exact h
  · split
    · exact updProfile_WF _ _ _ (fun q => rfl) (fun q => rfl) h
    · exact h

theorem claimReferralBonus_WF (s : Store) (rw : String) (h : WF s) :
    WF (claimReferralBonus s rw).1 := by
  unfold claimReferralBonus
  split
  · exact h
  next referral hr =>
    split
    · exact h
    · have h2 := addPoints_WF _ rw 50 "referral_bonus" (some "Welcome bonus for using referral code")
        (addPoints_WF s referral.referrerWallet 50 "referral_bonus"
          (some "Referral bonus for inviting") h)
      dsimp only
      split
      · exact updProfile_WF _ _ _ (fun q => rfl) (fun q => rfl) h2
      · exact h2

theorem maybeClaimReferralBonus_WF (s : Store) (w : String) (h : WF s) :
    WF (maybeClaimReferralBonus s w) := by
  unfold maybeClaimReferralBonus
  split
  · exact h
  · split
    · split
      · split
        · exact claimReferralBonus_WF _ _ h
        · exact h
      · exact h
    · exact h

theorem claimConnectBonus_WF (s : Store) (w : String) (h : WF s) :
    WF (claimConnectBonus s w).1 := by
  unfold claimConnectBonus
  split
  · exact h
  · split
    · exact h
    · exact addPoints_WF _ _ _ _ _ (updProfile_WF _ _ _ (fun q => rfl) (fun q => rfl) h)

theorem connectXAccount_WF (s : Store) (w u : String) (h : WF s) :
    WF (connectXAccount s w u).1 := by
  unfold connectXAccount
  split
  · exact h
  · split
    · exact h
    · exact maybeClaimReferralBonus_WF _ _ (maybeGenerateReferralCode_WF _ _
        (addPoints_WF _ _ _ _ _ (updProfile_WF _ _ _ (fun q => rfl) (fun q => rfl) h)))

theorem disconnectXAccount_WF (s : Store) (w : String) (h : WF s) :
    WF (disconnectXAccount s w).1 := by
  unfold disconnectXAccount
  split
  · exact h
  · split
    · exact h
    · exact addPoints_WF _ _ _ _ _ (updProfile_WF _ _ _ (fun q => rfl) (fun q => rfl) h)

theorem connectDiscordAccount_WF (s : Store) (w u : String) (did : Option String) (h : WF s) :
    WF (connectDiscordAccount s w u did).1 := by
  unfold connectDiscordAccount
  split
  · exact h
  · split
    · exact h
    · exact maybeClaimReferralBonus_WF _ _ (maybeGenerateReferralCode_WF _ _
        (addPoints_WF _ _ _ _ _ (updProfile_WF _ _ _ (fun q => rfl) (fun q => rfl) h)))

theorem disconnectDiscordAccount_WF (s : Store) (w : String) (h : WF s) :
    WF (disconnectDiscordAccount s w).1 := by
  unfold disconnectDiscordAccount
  split
  · exact h
  · split
    · exact h
    · dsimp only
      split
      · exact addPoints_WF _ _ _ _ _ (addPoints_WF _ _ _ _ _
          (updProfile_WF _ _ _ (fun q => rfl) (fun q => rfl) h))
      · exact addPoints_WF _ _ _ _ _ (updProfile_WF _ _ _ (fun q => rfl) (fun q => rfl) h)

theorem verifyDiscordServer_WF (s : Store) (w : String) (fr : FetchResult) (h : WF s) :
    WF (verifyDiscordServer s w fr).1 := by
  unfold verifyDiscordServer
  split
  · exact h
  · split
    · exact h
    · split
      · exact h
      · split
        · exact h
        · split
          · split
            · exact h
            · split
              · exact h
              · exact maybeClaimReferralBonus_WF _ _ (maybeGenerateReferralCode_WF _ _
                  (addPoints_WF _ _ _ _ _ (updProfile_WF _ _ _ (fun q => rfl) (fun q => rfl) h)))
          · exact h

theorem completeDailyPost_WF (s : Store) (w : String) (url : Option String) (today : String)
    (h : WF s) : WF (completeDailyPost s w url today).1 := by
  unfold completeDailyPost
  split
  · exact h
  · split
    · exact h
    · split
      · exact h
      · dsimp only
        have h1 : WF (addPoints (completeTask s w "daily_post" 100 url (some today))
            w 100 "daily_post" (some "Daily X post")).1 := addPoints_WF _ _ _ _ _ h
        split
        · split
          · split
            · exact claimReferralBonus_WF _ _ h1
            · exact h1
          · exact h1
        · exact h1

theorem applyReferralCode_WF (s : Store) (w code : String) (h : WF s) :
    WF (applyReferralCode s w code).1 := by
  unfold applyReferralCode
  split
  · exact h
  · split
    · exact h
    · split
      · exact h
      · split
        · exact h
        · split
          · exact h
          · exact updProfile_WF _ _ _ (fun q => rfl) (fun q => rfl) h

theorem adjustUserPoints_WF (s : Store) (w : String) (delta : Int) (reason : String)
    (h : WF s) : WF (adjustUserPoints s w delta reason).1 := by
  unfold adjustUserPoints
  split
  · exact h
  · exact addPoints_WF _ _ _ _ _ h

theorem revokeTweetPoints_WF (s : Store) (cid : Nat) (h : WF s) :
    WF (revokeTweetPoints s cid).1 := by
  unfold revokeTweetPoints
  split
  · exact h
  · split
    · exact h
    · exact addPoints_WF _ _ _ _ _ h

theorem checkUserDiscordMembership_WF (s : Store) (w : String) (fr : FetchResult)
    (h : WF s) : WF (checkUserDiscordMembership s w fr).1 := by
  unfold checkUserDiscordMembership
  split
  · exact h
  · split
    · exact h
    · split
      · split
        · exact addPoints_WF _ _ _ _ _ (updProfile_WF _ _ _ (fun q => rfl) (fun q => rfl) h)
        · exact h
      · exact h

theorem membershipSweepStep_WF (adapter : String → FetchResult)
    (acc : Store × Nat × Nat × Nat) (user : Profile) (h : WF acc.1) :
    WF (membershipSweepStep adapter acc user).1 := by
  obtain ⟨s, c, r, e⟩ := acc
  unfold membershipSweepStep
  dsimp only
  split
  · exact h
  · split
    · exact h
    · split
      · exact addPoints_WF _ _ _ _ _ (updProfile_WF _ _ _ (fun q => rfl) (fun q => rfl) h)
      · split
        · exact h
        · exact h

theorem tweetSweepStep_WF (tf : String → FetchResult)
    (acc : Store × Nat × Nat) (completion : TaskRow) (h : WF acc.1) :
    WF (tweetSweepStep tf acc completion).1 := by
  obtain ⟨s, c, r⟩ := acc
  unfold tweetSweepStep
  dsimp only
  split
  · exact h
  · split
    · split
      · exact revokeTweetPoints_WF _ _ h
      · exact revokeTweetPoints_WF _ _ h
    · exact h

theorem foldl_WF {β γ : Type} (body : Store × β → γ → Store × β)
    (hb : ∀ a x, WF a.1 → WF (body a x).1) :
    ∀ (l : List γ) (a : Store × β), WF a.1 → WF (l.foldl body a).1 := by
  intro l
  induction l with
  | nil => intro a ha; exact ha
  | cons x t ih => intro a ha; exact ih _ (hb a x ha)

theorem checkDiscordServerMemberships_WF (s : Store) (adapter : String → FetchResult)
    (h : WF s) : WF (checkDiscordServerMemberships s adapter).1 := by
  unfold checkDiscordServerMemberships
  exact foldl_WF _ (membershipSweepStep_WF adapter) _ _ h

theorem checkAndRevokeDeletedTweets_WF (s : Store) (w : String) (tf : String → FetchResult)
    (h : WF s) : WF (checkAndRevokeDeletedTweets s w tf).1 := by
  unfold checkAndRevokeDeletedTweets
  exact foldl_WF _ (tweetSweepStep_WF tf) _ _ h

theorem cronCheckAllTweets_WF (s : Store) (tf : String → FetchResult)
    (h : WF s) : WF (cronCheckAllTweets s tf).1 := by
  unfold cronCheckAllTweets
  exact foldl_WF _ (tweetSweepStep_WF tf) _ _ h

/-- Every core operation preserves store well-formedness. -/
theorem runStep_WF (s : Store) (op : Op) (h : WF s) : WF (runStep s op) := by
  cases op with
  | getOrCreateProfile w chain => exact getOrCreateWalletProfile_WF s w chain h
  | claimConnectBonus w => exact claimConnectBonus_WF s w h
  | connectX w u => exact connectXAccount_WF s w u h
  | disconnectX w => exact disconnectXAccount_WF s w h
  | connectDiscord w u did => exact connectDiscordAccount_WF s w u did h
  | disconnectDiscord w => exact disconnectDiscordAccount_WF s w h
  | verifyDiscord w fr => exact verifyDiscordServer_WF s w fr h
  | completeDailyPost w url today => exact completeDailyPost_WF s w url today h
  | applyReferral w code => exact applyReferralCode_WF s w code h
  | claimReferral w => exact claimReferralBonus_WF s w h
  | revokeTweet cid => exact revokeTweetPoints_WF s cid h
  | adjustPoints w delta reason => exact adjustUserPoints_WF s w delta reason h
  | checkMembership w fr => exact checkUserDiscordMembership_WF s w fr h
  | sweepMemberships adapter => exact checkDiscordServerMemberships_WF s adapter h
  | sweepTweets w tf => exact checkAndRevokeDeletedTweets_WF s w tf h
  | cronTweets tf => exact cronCheckAllTweets_WF s tf h

theorem initStore_WF : WF initStore := by
  refine ⟨List.Pairwise.nil, ?_, ?_⟩
  · intro e he
    simp [initStore] at he
  · intro p hp
    simp [initStore] at hp

theorem runOps_WF (ops : List Op) : WF (runOps ops) := by
  unfold runOps
  have : ∀ (l : List Op) (s : Store), WF s → WF (l.foldl runStep s) := by
    intro l
    induction l with
    | nil => intro s hs; exact hs
    | cons x t ih => intro s hs; exact ih _ (runStep_WF s x hs)
  exact this ops initStore initStore_WF

/-! ### Characterization lemmas -/

theorem findProfile_updProfile (s : Store) (w w' : String) (f : Profile → Profile)
    (haddr : ∀ q, (f q).walletAddress = q.walletAddress) :
    findProfile (updProfile s w f) w' =
      (findProfile s w').map (fun p => if sqlEq p.walletAddress w = true then f p else p) := by
  unfold findProfile updProfile
  rw [List.find?_map]
  have hpred : ((fun p => sqlEq p.walletAddress w') ∘
      fun p => if sqlEq p.walletAddress w = true then f p else p) =
      fun p => sqlEq p.walletAddress w' := by
    funext p
    by_cases hc : sqlEq p.walletAddress w = true <;> simp [Function.comp, hc, haddr]
  rw [hpred]

theorem find?_id_map (l : List TaskRow) (cid : Nat) (f : TaskRow → TaskRow)
    (hid : ∀ t, (f t).id = t.id) :
    (l.map (fun t => if t.id == cid then f t else t)).find? (fun t => t.id == cid) =
      (l.find? (fun t => t.id == cid)).map (fun t => if t.id == cid then f t else t) := by
  rw [List.find?_map]
  have hpred : ((fun t : TaskRow => t.id == cid) ∘
      fun t => if t.id == cid then f t else t) = fun t : TaskRow => t.id == cid := by
    funext t
    by_cases hc : (t.id == cid) = true <;> simp [Function.comp, hc, hid]
  rw [hpred]

theorem getOriginalBonusPoints_historyEq (s s' : Store) (w t : String) (fb : Int)
    (hh : s'.history = s.history) :
    getOriginalBonusPoints s' w t fb = getOriginalBonusPoints s w t fb := by
  unfold getOriginalBonusPoints
  rw [hh]

/-- Appending a row of a different type or wallet leaves the historical
lookup unchanged. -/
theorem getOriginalBonusPoints_append_ne (s s' : Store) (e : HistEntry) (w t : String) (fb : Int)
    (hh : s'.history = s.history ++ [e])
    (hne : (sqlEq e.walletAddress w && sqlEq e.transactionType t) = false) :
    getOriginalBonusPoints s' w t fb = getOriginalBonusPoints s w t fb := by
  unfold getOriginalBonusPoints
  rw [hh, List.filter_append]
  simp [List.filter, hne]

/-- Appending a matching row makes it the row the historical lookup
returns. -/
theorem getOriginalBonusPoints_append_match (s s' : Store) (e : HistEntry) (w t : String) (fb : Int)
    (hh : s'.history = s.history ++ [e])
    (hm : (sqlEq e.walletAddress w && sqlEq e.transactionType t) = true) :
    getOriginalBonusPoints s' w t fb = if e.pointsChange > 0 then e.pointsChange else fb := by
  unfold getOriginalBonusPoints
  rw [hh, List.filter_append]
  simp [List.filter, hm]

theorem findProfile_some_key {s : Store} {w : String} {p : Profile}
    (hp : findProfile s w = some p) : sqlEq p.walletAddress w = true := by
  have := List.find?_some (hp : s.profiles.find? (fun p => sqlEq p.walletAddress w) = some p)
  simpa using this

/-- The profile found after an address-preserving update at the same key
is the update of the profile found before. -/
theorem findProfile_updProfile_self {s : Store} {w : String} {p : Profile}
    (f : Profile → Profile) (haddr : ∀ q, (f q).walletAddress = q.walletAddress)
    (hp : findProfile s w = some p) :
    findProfile (updProfile s w f) w = some (f p) := by
  rw [findProfile_updProfile s w w f haddr, hp]
  simp [findProfile_some_key hp]

/-- An update at a key that does not match the lookup key leaves the
lookup unchanged, provided the keys differ case-insensitively. -/
theorem findProfile_updProfile_other {s : Store} {w w' : String} {p : Profile}
    (f : Profile → Profile) (haddr : ∀ q, (f q).walletAddress = q.walletAddress)
    (hp : findProfile s w' = some p) (hne : sqlEq w w' = false) :
    findProfile (updProfile s w f) w' = some p := by
  rw [findProfile_updProfile s w w' f haddr, hp]
  have : sqlEq p.walletAddress w = false := by
    by_contra hx
    have hx' : sqlEq p.walletAddress w = true := by simpa using hx
    have h1 : sqlEq w p.walletAddress = true := (sqlEq_symm w p.walletAddress).trans hx'
    have h2 : sqlEq w w' = true := sqlEq_trans h1 (findProfile_some_key hp)
    rw [hne] at h2
    exact Bool.false_ne_true h2
  simp [this]

/-- Store-level characterization of a successful `addPoints` call. -/
theorem addPoints_char {s : Store} {w : String} {p : Profile} (pts : Int) (t : String)
    (d : Option String) (hp : findProfile s w = some p) :
    addPoints s w pts t d =
      ({ updProfile s w (fun q => { q with totalPoints := p.totalPoints + pts, updatedAt := s.tick }) with
          history := s.history ++ [⟨w, t, pts, p.totalPoints + pts, d, s.tick⟩],
          tick := s.tick + 1 }, some (p.totalPoints + pts)) := by
  unfold addPoints
  rw [hp]
  rfl

/-- `maybeGenerateReferralCode` never touches history, totals, nor the
`referredBy`, `xConnected` or connection fields of any profile. -/
theorem maybeGenerateReferralCode_char (s : Store) (w : String) :
    (maybeGenerateReferralCode s w).history = s.history ∧
    (maybeGenerateReferralCode s w).tick = s.tick ∧
    (∀ w' p, findProfile s w' = some p → ∃ q, findProfile (maybeGenerateReferralCode s w) w' = some q ∧
      q.walletAddress = p.walletAddress ∧ q.totalPoints = p.totalPoints ∧
      q.xConnected = p.xConnected ∧ q.referredBy = p.referredBy ∧
      q.discordConnected = p.discordConnected ∧ q.discordVerified = p.discordVerified) := by
  unfold maybeGenerateReferralCode
  split
  · exact ⟨rfl, rfl, fun w' p hp => ⟨p, hp, rfl, rfl, rfl, rfl, rfl, rfl⟩⟩
  · split
    · refine ⟨rfl, rfl, fun w' p hp => ?_⟩
      refine ⟨if sqlEq p.walletAddress w = true then
          { p with referralCode := some (mkCode s.rng), updatedAt := s.tick } else p, ?_, ?_⟩
      · exact (findProfile_updProfile s w w'
            (fun q => { q with referralCode := some (mkCode s.rng), updatedAt := s.tick })
            (fun q => rfl)).trans (by rw [hp]; rfl)
      · by_cases hc : sqlEq p.walletAddress w = true <;> simp [hc]
    · exact ⟨rfl, rfl, fun w' p hp => ⟨p, hp, rfl, rfl, rfl, rfl, rfl, rfl⟩⟩

/-- `maybeClaimReferralBonus` is a no-op for wallets with no
`referredBy`. -/
theorem maybeClaimReferralBonus_noop {s : Store} {w : String} {p : Profile}
    (hp : findProfile s w = some p) (hrb : p.referredBy = none) :
    maybeClaimReferralBonus s w = s := by
  unfold maybeClaimReferralBonus
  rw [hp]
  simp [hrb]

/-! ### Claims -/

/-- C1: Ledger identity invariant. After any sequence of core
operations (connect and disconnect for X or Discord, verify Discord,
claim connect bonus, complete daily post, apply and claim referral,
revoke, admin adjustment, membership and tweet reconciliation) from the
empty store, every wallet profile has totalPoints equal to the sum of
pointsChange over all PointsHistory entries of that wallet. -/
theorem ledger_identity_after_ops (ops : List Op) :
    ∀ p ∈ (runOps ops).profiles,
      p.totalPoints = histSum (runOps ops) p.walletAddress :=
  fun p hp => (runOps_WF ops).2.2 p hp

/-- Concrete run used to witness the ledger identity. -/
def opsWitnessC1 : List Op :=
  [Op.getOrCreateProfile "0xAA" "evm", Op.connectX "0xAA" "alice",
   Op.claimConnectBonus "0xAA", Op.connectDiscord "0xAA" "al" (some "d1"),
   Op.verifyDiscord "0xAA" (FetchResult.response 200)]

/-- Witness for C1 at a concrete run. -/
theorem ledger_identity_after_ops_witness :
    ((runOps opsWitnessC1).profiles.head (by decide)).totalPoints =
      histSum (runOps opsWitnessC1)
        ((runOps opsWitnessC1).profiles.head (by decide)).walletAddress :=
  ledger_identity_after_ops opsWitnessC1 _ (List.head_mem _)

/-- C10 counterexample: `addPoints` on a wallet with no profile creates
nothing, appends nothing and returns null — the claimed auto-creation
does not happen. -/
theorem addPoints_unknown_wallet_noop :
    (addPoints initStore "0xa" 10 "admin_adjustment" none).1.profiles = [] ∧
    (addPoints initStore "0xa" 10 "admin_adjustment" none).1.history = [] ∧
    (addPoints initStore "0xa" 10 "admin_adjustment" none).2 = none :=
  ⟨rfl, rfl, rfl⟩

/-- C10 amended: `addPoints` for an unknown wallet performs no writes
and returns null; the zero-balance auto-creation lives in
`getOrCreateWalletProfile`, which callers invoke before mutating. -/
theorem addPoints_missing_profile_behavior (s : Store) (w chain : String) (pts : Int)
    (t : String) (d : Option String) (hnone : findProfile s w = none) :
    addPoints s w pts t d = (s, none) ∧
    (getOrCreateWalletProfile s w chain).2.totalPoints = 0 ∧
    (getOrCreateWalletProfile s w chain).2.walletAddress = w ∧
    (getOrCreateWalletProfile s w chain).1.profiles =
      s.profiles ++ [(getOrCreateWalletProfile s w chain).2] := by
  unfold addPoints getOrCreateWalletProfile
  rw [hnone]
  exact ⟨rfl, rfl, rfl, rfl⟩

/-- Witness for the amended C10 at a concrete input. -/
theorem addPoints_missing_profile_behavior_witness :
    addPoints initStore "0xb" 5 "daily_post" none = (initStore, none) :=
  (addPoints_missing_profile_behavior initStore "0xb" "evm" 5 "daily_post" none rfl).1

/-- C8: Fail-open verification. `checkTweetExists` returns false exactly
on a confirmed 404 or 403 response and true on success and on every
other error condition; the single-wallet membership reconciliation
leaves the store untouched on every outcome other than a confirmed 404
response. -/
theorem fail_open_verification :
    (∀ fr, checkTweetExists fr = false ↔
      (fr = FetchResult.response 404 ∨ fr = FetchResult.response 403)) ∧
    (∀ (s : Store) (w : String) (fr : FetchResult),
      (∀ st, fr = FetchResult.response st → st ≠ 404) →
      (checkUserDiscordMembership s w fr).1 = s) := by
  constructor
  · intro fr
    cases fr with
    | failure => simp [checkTweetExists]
    | response st =>
      by_cases h404 : st = 404
      · subst h404; decide
      · by_cases h403 : st = 403
        · subst h403; decide
        · have hTrue : checkTweetExists (FetchResult.response st) = true := by
            unfold checkTweetExists
            by_cases h1 : statusOk st = true
            · simp [h1]
            · have h1' : statusOk st = false := by simpa using h1
              simp [h1', h404, h403]
          simp [hTrue, h404, h403]
  · intro s w fr hind
    cases fr with
    | failure =>
      unfold checkUserDiscordMembership
      split
      · rfl
      · split
        · rfl
        · rfl
    | response st =>
      have hst : st ≠ 404 := hind st rfl
      have hst' : (st == 404) = false := by simp [hst]
      unfold checkUserDiscordMembership
      split
      · rfl
      · split
        · rfl
        · simp only [hst', Bool.false_eq_true, if_false]

/-- Witness for C8 at a concrete indeterminate outcome (HTTP 500). -/
theorem fail_open_verification_witness :
    (checkUserDiscordMembership initStore "0xa" (FetchResult.response 500)).1 = initStore :=
  fail_open_verification.2 initStore "0xa" (FetchResult.response 500)
    (fun st h => by injection h with h; omega)

/-- The profile used for the C9 failing input: an eligible wallet that
owns referral code REFC7, stored with mixed-case address 0xABC. -/
def c9Owner : Profile :=
  { walletAddress := "0xABC", chainType := "evm", totalPoints := 200
    connectBonusClaimed := false
    xConnected := true, xUsername := some "ax", xConnectedAt := some 0
    discordConnected := true, discordUsername := some "ad", discordId := some "d9"
    discordConnectedAt := some 0, discordVerified := true, discordVerifiedAt := some 0
    referralCode := some "REFC7", referredBy := none
    referralCount := 0, referralPointsEarned := 0, createdAt := 0, updatedAt := 0 }

/-- The store for the C9 failing input. -/
def c9Store : Store :=
  { profiles := [c9Owner], history := [], completions := [], referrals := []
    nextTaskId := 1, nextReferralId := 1, tick := 5, rng := 8 }

/-- C9: the self-referral guard compares addresses with case-sensitive
JavaScript equality, so applying the own code under a different-cased
spelling of the same (case-insensitive) wallet identity succeeds and
records a self-referral, contradicting the claim. -/
theorem apply_own_code_case_variant :
    sqlEq "0xabc" "0xABC" = true ∧
    findProfile c9Store "0xabc" = some c9Owner ∧
    (applyReferralCode c9Store "0xabc" "REFC7").2.success = true ∧
    ((applyReferralCode c9Store "0xabc" "REFC7").1.referrals.map
      (fun r => (r.referrerWallet, r.referredWallet))) = [("0xABC", "0xabc")] ∧
    (findProfile (applyReferralCode c9Store "0xabc" "REFC7").1 "0xABC").map
      Profile.referredBy = some (some "REFC7") := by
  decide

/-- C3: Idempotent revocation. The first `revokeTweetPoints` call on an
active completion succeeds, marks it revoked with a timestamp, and
appends exactly one negative history entry equal to the points awarded
on that row; the second call on the same id fails with the
already-revoked message and changes no state. -/
theorem revoke_idempotent (s : Store) (cid : Nat) (task : TaskRow) (p : Profile)
    (ht : s.completions.find? (fun t => t.id == cid) = some task)
    (hactive : (task.status == "revoked") = false)
    (hp : findProfile s task.walletAddress = some p)
    (hpos : 0 < task.pointsAwarded) :
    (revokeTweetPoints s cid).2.success = true ∧
    (revokeTweetPoints s cid).1.completions.find? (fun t => t.id == cid) =
      some { task with status := "revoked", revokedAt := some s.tick } ∧
    (revokeTweetPoints s cid).1.history = s.history ++
      [⟨task.walletAddress, "tweet_revoked", -task.pointsAwarded,
        p.totalPoints - task.pointsAwarded, some "Points revoked for deleted tweet", s.tick⟩] ∧
    (-task.pointsAwarded < 0) ∧
    (revokeTweetPoints (revokeTweetPoints s cid).1 cid).2.success = false ∧
    (revokeTweetPoints (revokeTweetPoints s cid).1 cid).2.message = "Already revoked" ∧
    (revokeTweetPoints (revokeTweetPoints s cid).1 cid).1 = (revokeTweetPoints s cid).1 := by
  have htid : (task.id == cid) = true := by
    have := List.find?_some ht
    simpa using this
  have hp' : findProfile { s with completions := s.completions.map (fun t =>
      if t.id == cid then { t with status := "revoked", revokedAt := some s.tick } else t) }
      task.walletAddress = some p := hp
  have hres : revokeTweetPoints s cid =
      ({ updProfile { s with completions := s.completions.map (fun t =>
            if t.id == cid then { t with status := "revoked", revokedAt := some s.tick } else t) }
          task.walletAddress
          (fun q => { q with totalPoints := p.totalPoints + -task.pointsAwarded, updatedAt := s.tick }) with
          history := s.history ++ [⟨task.walletAddress, "tweet_revoked", -task.pointsAwarded,
            p.totalPoints + -task.pointsAwarded, some "Points revoked for deleted tweet", s.tick⟩],
          tick := s.tick + 1 },
        { success := true, message := "Revoked points", points := none }) := by
    unfold revokeTweetPoints
    rw [ht]
    simp only [hactive, Bool.false_eq_true, if_false]
    rw [addPoints_char (-task.pointsAwarded) "tweet_revoked"
      (some "Points revoked for deleted tweet") hp']
  have htid' : task.id = cid := by simpa using htid
  have hfind2 : (revokeTweetPoints s cid).1.completions.find? (fun t => t.id == cid) =
      some { task with status := "revoked", revokedAt := some s.tick } := by
    rw [hres]
    show (s.completions.map _).find? _ = _
    rw [find?_id_map s.completions cid
      (fun t => { t with status := "revoked", revokedAt := some s.tick }) (fun t => rfl), ht]
    simp [htid']
  rw [hres] at hfind2
  refine ⟨by rw [hres], by rw [hres]; exact hfind2, by rw [hres]; rfl, by omega, ?_, ?_, ?_⟩
  · rw [hres]
    unfold revokeTweetPoints
    rw [hfind2]
    rfl
  · rw [hres]
    unfold revokeTweetPoints
    rw [hfind2]
    rfl
  · rw [hres]
    unfold revokeTweetPoints
    rw [hfind2]
    rfl

/-- Projection-level effects of one successful Points Engine call: the
appended ledger row, the clock advance, the untouched tables, the
updated balance of the target profile and the stability of every other
profile. -/
theorem addPoints_effects {s : Store} {w : String} {p : Profile} (pts : Int) (t : String)
    (d : Option String) (hp : findProfile s w = some p) :
    (addPoints s w pts t d).1.history =
      s.history ++ [⟨w, t, pts, p.totalPoints + pts, d, s.tick⟩] ∧
    (addPoints s w pts t d).1.tick = s.tick + 1 ∧
    (addPoints s w pts t d).1.completions = s.completions ∧
    (addPoints s w pts t d).1.referrals = s.referrals ∧
    findProfile (addPoints s w pts t d).1 w =
      some { p with totalPoints := p.totalPoints + pts, updatedAt := s.tick } ∧
    (∀ w' q, findProfile s w' = some q → sqlEq w w' = false →
      findProfile (addPoints s w pts t d).1 w' = some q) ∧
    (addPoints s w pts t d).2 = some (p.totalPoints + pts) := by
  rw [addPoints_char pts t d hp]
  refine ⟨rfl, rfl, rfl, rfl, ?_, ?_, rfl⟩
  · exact findProfile_updProfile_self _ (fun q => rfl) hp
  · intro w' q hq hne
    exact findProfile_updProfile_other _ (fun q => rfl) hq hne

/-- C4: Disconnect after verify. For a wallet whose profile has Discord
connected and verified, one `disconnectDiscordAccount` call succeeds,
resets every Discord field (connected, username, id, connectedAt,
verified, verifiedAt) to false or null, and appends exactly two
deductions in that single call: the historically granted
discord_connect amount and the historically granted discord_verify
amount, leaving the balance lower by exactly their sum. -/
theorem disconnect_after_verify (s : Store) (w : String) (p : Profile)
    (hp : findProfile s w = some p)
    (hdc : p.discordConnected = true) (hdv : p.discordVerified = true) :
    (disconnectDiscordAccount s w).2.success = true ∧
    (∃ q, findProfile (disconnectDiscordAccount s w).1 w = some q ∧
      q.discordConnected = false ∧ q.discordUsername = none ∧ q.discordId = none ∧
      q.discordConnectedAt = none ∧ q.discordVerified = false ∧ q.discordVerifiedAt = none ∧
      q.totalPoints = p.totalPoints - getOriginalBonusPoints s w "discord_connect" 50
        - getOriginalBonusPoints s w "discord_verify" 50) ∧
    (disconnectDiscordAccount s w).1.history = s.history ++
      [⟨w, "discord_disconnect", -(getOriginalBonusPoints s w "discord_connect" 50),
        p.totalPoints - getOriginalBonusPoints s w "discord_connect" 50,
        some ("Disconnected Discord account (-" ++
          toString (getOriginalBonusPoints s w "discord_connect" 50) ++ "pt)"), s.tick⟩,
       ⟨w, "discord_verify_revoked", -(getOriginalBonusPoints s w "discord_verify" 50),
        p.totalPoints - getOriginalBonusPoints s w "discord_connect" 50
          - getOriginalBonusPoints s w "discord_verify" 50,
        some ("Discord server verification revoked (-" ++
          toString (getOriginalBonusPoints s w "discord_verify" 50) ++ "pt)"), s.tick + 1⟩] := by
  unfold disconnectDiscordAccount
  rw [hp]
  simp only [hdc, hdv, Bool.not_true, Bool.false_eq_true, if_false, if_true]
  set fd : Profile → Profile := (fun q =>
    { q with discordConnected := false, discordUsername := none, discordId := none,
             discordConnectedAt := none, discordVerified := false, discordVerifiedAt := none,
             updatedAt := s.tick }) with hfd
  set s1 : Store := updProfile s w fd with hs1
  have h1h : s1.history = s.history := rfl
  have h1t : s1.tick = s.tick := rfl
  have hfp1 : findProfile s1 w = some (fd p) :=
    findProfile_updProfile_self fd (fun q => rfl) hp
  have hc1 : getOriginalBonusPoints s1 w "discord_connect" 50 =
      getOriginalBonusPoints s w "discord_connect" 50 :=
    getOriginalBonusPoints_historyEq s s1 w "discord_connect" 50 h1h
  rw [hc1]
  set c : Int := getOriginalBonusPoints s w "discord_connect" 50 with hc
  obtain ⟨hh2, ht2, -, -, hfp2, -, -⟩ := addPoints_effects (-c) "discord_disconnect"
    (some ("Disconnected Discord account (-" ++ toString c ++ "pt)")) hfp1
  have hv : getOriginalBonusPoints
      (addPoints s1 w (-c) "discord_disconnect"
        (some ("Disconnected Discord account (-" ++ toString c ++ "pt)"))).1
      w "discord_verify" 50 = getOriginalBonusPoints s w "discord_verify" 50 := by
    have hne : (sqlEq w w && sqlEq "discord_disconnect" "discord_verify") = false := by
      have hx : sqlEq "discord_disconnect" "discord_verify" = false := by decide
      simp [hx]
    exact (getOriginalBonusPoints_append_ne s1 _ _ w "discord_verify" 50 hh2 hne).trans
      (getOriginalBonusPoints_historyEq s s1 w "discord_verify" 50 h1h)
  rw [hv]
  set v : Int := getOriginalBonusPoints s w "discord_verify" 50 with hvv
  obtain ⟨hh3, ht3, -, -, hfp3, -, -⟩ := addPoints_effects (-v) "discord_verify_revoked"
    (some ("Discord server verification revoked (-" ++ toString v ++ "pt)")) hfp2
  refine ⟨trivial, ⟨_, hfp3, rfl, rfl, rfl, rfl, rfl, rfl, rfl⟩, ?_⟩
  rw [hh3, hh2, ht2, h1h, h1t]
  dsimp only
  simp only [Int.sub_eq_add_neg, List.append_assoc, List.singleton_append]

/-- The profile of the C4 witness: Discord connected and verified with
historically granted bonuses of 50 and 50. -/
def c4Profile : Profile :=
  { walletAddress := "0xd", chainType := "evm", totalPoints := 100
    connectBonusClaimed := false
    xConnected := false, xUsername := none, xConnectedAt := none
    discordConnected := true, discordUsername := some "du", discordId := some "d4"
    discordConnectedAt := some 0, discordVerified := true, discordVerifiedAt := some 1
    referralCode := none, referredBy := none
    referralCount := 0, referralPointsEarned := 0, createdAt := 0, updatedAt := 1 }

/-- The store of the C4 witness. -/
def c4Store : Store :=
  { profiles := [c4Profile]
    history := [⟨"0xd", "discord_connect", 50, 50, none, 0⟩,
                ⟨"0xd", "discord_verify", 50, 100, none, 1⟩]
    completions := [], referrals := []
    nextTaskId := 1, nextReferralId := 1, tick := 2, rng := 0 }

/-- Witness for C4: the +50/+50 wallet ends at exactly zero. -/
theorem disconnect_after_verify_witness :
    (disconnectDiscordAccount c4Store "0xd").2.success = true ∧
    (findProfile (disconnectDiscordAccount c4Store "0xd").1 "0xd").map
      Profile.totalPoints = some 0 := by
  refine ⟨(disconnect_after_verify c4Store "0xd" c4Profile rfl rfl rfl).1, ?_⟩
  obtain ⟨q, hq, -, -, -, -, -, -, htp⟩ :=
    (disconnect_after_verify c4Store "0xd" c4Profile rfl rfl rfl).2.1
  rw [hq]
  dsimp only [Option.map]
  rw [htp]
  decide

/-- The completion row of the C3 witness. -/
def c3Row : TaskRow :=
  { id := 1, walletAddress := "0xc", taskType := "daily_post", pointsAwarded := 100
    metadata := some "https://x.example/1", completionDate := some "2026-01-01"
    status := "active", completedAt := 0, revokedAt := none }

/-- The profile of the C3 witness. -/
def c3Profile : Profile :=
  { walletAddress := "0xc", chainType := "evm", totalPoints := 100
    connectBonusClaimed := false
    xConnected := true, xUsername := some "cx", xConnectedAt := some 0
    discordConnected := false, discordUsername := none, discordId := none
    discordConnectedAt := none, discordVerified := false, discordVerifiedAt := none
    referralCode := none, referredBy := none
    referralCount := 0, referralPointsEarned := 0, createdAt := 0, updatedAt := 0 }

/-- The store of the C3 witness. -/
def c3Store : Store :=
  { profiles := [c3Profile]
    history := [⟨"0xc", "daily_post", 100, 100, none, 0⟩]
    completions := [c3Row], referrals := []
    nextTaskId := 2, nextReferralId := 1, tick := 3, rng := 0 }

/-- Witness for C3: first revocation succeeds, second is a no-op
failure. -/
theorem revoke_idempotent_witness :
    (revokeTweetPoints c3Store 1).2.success = true ∧
    (revokeTweetPoints (revokeTweetPoints c3Store 1).1 1).1 = (revokeTweetPoints c3Store 1).1 :=
  ⟨(revoke_idempotent c3Store 1 c3Row c3Profile rfl rfl rfl (by decide)).1,
   (revoke_idempotent c3Store 1 c3Row c3Profile rfl rfl rfl (by decide)).2.2.2.2.2.2⟩

/-- C6: Referral application gating. `applyReferralCode` fails whenever
the owner of the code is not currently X-connected, Discord-connected
and Discord-verified (eligibility is evaluated at application time);
when it succeeds it appends exactly one unclaimed Referral row and sets
referredBy to the upper-cased code on the referred profile. -/
theorem applyReferral_gating (s : Store) (w code : String) :
    (∀ owner, s.profiles.find? (fun p =>
        match p.referralCode with
        | some c => sqlEq c (upperStr code)
        | none => false) = some owner →
      (owner.xConnected && owner.discordConnected && owner.discordVerified) = false →
      (applyReferralCode s w code).2.success = false) ∧
    ((applyReferralCode s w code).2.success = true →
      ∃ owner, s.profiles.find? (fun p =>
        match p.referralCode with
        | some c => sqlEq c (upperStr code)
        | none => false) = some owner ∧
      (applyReferralCode s w code).1.referrals = s.referrals ++
        [⟨s.nextReferralId, owner.walletAddress, w, upperStr code, 0, 0, false, false, s.tick, none⟩] ∧
      (∃ q0, findProfile s w = some q0) ∧
      (∀ q ∈ (applyReferralCode s w code).1.profiles, sqlEq q.walletAddress w = true →
        q.referredBy = some (upperStr code))) := by
  constructor
  · intro owner hown hineg
    unfold applyReferralCode
    split
    · rfl
    · split
      · rfl
      · rw [hown]
        dsimp only
        split
        · rfl
        · simp [hineg]
  · intro hsucc
    unfold applyReferralCode at hsucc ⊢
    split at hsucc
    · simp at hsucc
    · rename_i profile heq1
      split at hsucc
      · simp at hsucc
      · rename_i hnrb
        split at hsucc
        · simp at hsucc
        · rename_i referrer heq2
          split at hsucc
          · simp at hsucc
          · rename_i hself
            split at hsucc
            · simp at hsucc
            · rename_i helig
              have hnrb' : profile.referredBy.isSome = false := by simpa using hnrb
              have hself' : (referrer.walletAddress == w) = false := by simpa using hself
              have helig' : (!(referrer.xConnected && referrer.discordConnected &&
                  referrer.discordVerified)) = false := by simpa using helig
              rw [heq1]
              rw [heq2]
              simp only [hnrb', hself', helig', Bool.false_eq_true, if_false]
              refine ⟨referrer, rfl, rfl, ⟨profile, rfl⟩, ?_⟩
              intro q hq hqw
              obtain ⟨r, hr, rfl⟩ := List.mem_map.mp hq
              by_cases hc : sqlEq r.walletAddress w = true
              · simp [hc]
              · rw [show (if sqlEq r.walletAddress w = true then _ else r).walletAddress
                    = r.walletAddress from by simp [hc]] at hqw
                exact absurd hqw hc

/-- The ineligible code owner of the C6 witness. -/
def c6Owner : Profile :=
  { walletAddress := "0xF", chainType := "evm", totalPoints := 0
    connectBonusClaimed := false
    xConnected := false, xUsername := none, xConnectedAt := none
    discordConnected := true, discordUsername := some "f", discordId := some "d6"
    discordConnectedAt := some 0, discordVerified := true, discordVerifiedAt := some 0
    referralCode := some "REFC5", referredBy := none
    referralCount := 0, referralPointsEarned := 0, createdAt := 0, updatedAt := 0 }

/-- The store of the C6 witness. -/
def c6Store : Store :=
  { profiles := [c6Owner], history := [], completions := [], referrals := []
    nextTaskId := 1, nextReferralId := 1, tick := 0, rng := 0 }

/-- Witness for C6: applying the code of an owner who has disconnected X
fails. -/
theorem applyReferral_gating_witness :
    (applyReferralCode c6Store "0xe" "REFC5").2.success = false :=
  (applyReferral_gating c6Store "0xe" "REFC5").1 c6Owner rfl rfl

theorem find?_map_addr_self {l : List Profile} {w : String} {p : Profile}
    (f : Profile → Profile) (haddr : ∀ q, (f q).walletAddress = q.walletAddress)
    (hp : l.find? (fun q => sqlEq q.walletAddress w) = some p) :
    (l.map (fun q => if sqlEq q.walletAddress w = true then f q else q)).find?
      (fun q => sqlEq q.walletAddress w) = some (f p) :=
  findProfile_updProfile_self (s := ⟨l, [], [], [], 0, 0, 0, 0⟩) f haddr hp

theorem find?_map_addr_other {l : List Profile} {w w' : String} {p : Profile}
    (f : Profile → Profile) (haddr : ∀ q, (f q).walletAddress = q.walletAddress)
    (hp : l.find? (fun q => sqlEq q.walletAddress w') = some p)
    (hne : sqlEq w w' = false) :
    (l.map (fun q => if sqlEq q.walletAddress w = true then f q else q)).find?
      (fun q => sqlEq q.walletAddress w') = some p :=
  findProfile_updProfile_other (s := ⟨l, [], [], [], 0, 0, 0, 0⟩) f haddr hp hne

/-- C5 amended: `claimReferralBonus` on an unclaimed referral awards
exactly 50 points to the referrer and 50 to the referred wallet, marks
both claimed flags true with a timestamp, and updates the referrer
referralCount and referralPointsEarned incrementally (+1 and +50), not
by recomputation from the Referral rows. -/
theorem claimReferralBonus_post (s : Store) (rw : String) (referral : ReferralRow)
    (p q : Profile)
    (hr : s.referrals.find? (fun r => sqlEq r.referredWallet rw) = some referral)
    (hunclaimed : referral.referrerClaimed = false)
    (hpr : findProfile s referral.referrerWallet = some p)
    (hpq : findProfile s rw = some q)
    (hne : sqlEq referral.referrerWallet rw = false) :
    (claimReferralBonus s rw).2.success = true ∧
    (claimReferralBonus s rw).1.history = s.history ++
      [⟨referral.referrerWallet, "referral_bonus", 50, p.totalPoints + 50,
        some "Referral bonus for inviting", s.tick⟩,
       ⟨rw, "referral_bonus", 50, q.totalPoints + 50,
        some "Welcome bonus for using referral code", s.tick + 1⟩] ∧
    (findProfile (claimReferralBonus s rw).1 referral.referrerWallet).map
      Profile.referralCount = some (p.referralCount + 1) ∧
    (findProfile (claimReferralBonus s rw).1 referral.referrerWallet).map
      Profile.referralPointsEarned = some (p.referralPointsEarned + 50) ∧
    (findProfile (claimReferralBonus s rw).1 referral.referrerWallet).map
      Profile.totalPoints = some (p.totalPoints + 50) ∧
    (findProfile (claimReferralBonus s rw).1 rw).map
      Profile.totalPoints = some (q.totalPoints + 50) ∧
    (claimReferralBonus s rw).1.referrals = s.referrals.map (fun r =>
      if r.id == referral.id then
        { r with referrerClaimed := true, referredClaimed := true,
                 claimedAt := some (s.tick + 2),
                 referrerPoints := 50, referredPoints := 50 }
      else r) := by
  have hne2 : sqlEq rw referral.referrerWallet = false := by
    rw [sqlEq_symm]; exact hne
  unfold claimReferralBonus
  rw [hr]
  simp only [hunclaimed, Bool.false_eq_true, if_false]
  obtain ⟨hh1, ht1, hcm1, hrf1, hfp1, hfpo1, -⟩ :=
    addPoints_effects 50 "referral_bonus" (some "Referral bonus for inviting") hpr
  have hq1 := hfpo1 rw q hpq hne
  obtain ⟨hh2, ht2, hcm2, hrf2, hfp2, hfpo2, -⟩ :=
    addPoints_effects 50 "referral_bonus" (some "Welcome bonus for using referral code") hq1
  have hst := hfpo2 _ _ hfp1 hne2
  rw [hst]
  dsimp only
  set t2 : Store := (addPoints (addPoints s referral.referrerWallet 50 "referral_bonus"
    (some "Referral bonus for inviting")).1 rw 50 "referral_bonus"
    (some "Welcome bonus for using referral code")).1 with ht2d
  have hstL := hst
  simp only [findProfile] at hstL
  have hfpL := hfp2
  simp only [findProfile] at hfpL
  refine ⟨trivial, ?_, ?_, ?_, ?_, ?_, ?_⟩
  · dsimp only [updProfile]
    rw [hh2, hh1, ht1]
    simp [List.append_assoc]
  · simp only [findProfile]
    dsimp only [updProfile]
    rw [find?_map_addr_self (fun x => { x with referralCount := p.referralCount + 1, referralPointsEarned := p.referralPointsEarned + 50, updatedAt := t2.tick }) (fun x => rfl) hstL]
    rfl
  · simp only [findProfile]
    dsimp only [updProfile]
    rw [find?_map_addr_self (fun x => { x with referralCount := p.referralCount + 1, referralPointsEarned := p.referralPointsEarned + 50, updatedAt := t2.tick }) (fun x => rfl) hstL]
    rfl
  · simp only [findProfile]
    dsimp only [updProfile]
    rw [find?_map_addr_self (fun x => { x with referralCount := p.referralCount + 1, referralPointsEarned := p.referralPointsEarned + 50, updatedAt := t2.tick }) (fun x => rfl) hstL]
    rfl
  · simp only [findProfile]
    dsimp only [updProfile]
    rw [find?_map_addr_other (fun x => { x with referralCount := p.referralCount + 1, referralPointsEarned := p.referralPointsEarned + 50, updatedAt := t2.tick }) (fun x => rfl) hfpL hne]
    rfl
  · dsimp only [updProfile]
    rw [hrf2, hrf1]
    simp [ht2, ht1, Nat.add_assoc]

/-- The drifted referrer profile of the C5 counterexample: its stored
aggregates (5 referrals, 77 points) disagree with its single actual
referral row. -/
def c5Referrer : Profile :=
  { walletAddress := "0xr", chainType := "evm", totalPoints := 0
    connectBonusClaimed := false
    xConnected := true, xUsername := some "r", xConnectedAt := some 0
    discordConnected := true, discordUsername := some "rd", discordId := some "dr"
    discordConnectedAt := some 0, discordVerified := true, discordVerifiedAt := some 0
    referralCode := some "REFC3", referredBy := none
    referralCount := 5, referralPointsEarned := 77, createdAt := 0, updatedAt := 0 }

/-- The referred profile of the C5 counterexample. -/
def c5Referred : Profile :=
  { walletAddress := "0xb", chainType := "evm", totalPoints := 0
    connectBonusClaimed := false
    xConnected := false, xUsername := none, xConnectedAt := none
    discordConnected := false, discordUsername := none, discordId := none
    discordConnectedAt := none, discordVerified := false, discordVerifiedAt := none
    referralCode := none, referredBy := some "REFC3"
    referralCount := 0, referralPointsEarned := 0, createdAt := 0, updatedAt := 0 }

/-- The single unclaimed referral row of the C5 counterexample. -/
def c5Row : ReferralRow :=
  { id := 1, referrerWallet := "0xr", referredWallet := "0xb", referralCode := "REFC3"
    referrerPoints := 0, referredPoints := 0, referrerClaimed := false
    referredClaimed := false, createdAt := 0, claimedAt := none }

/-- The store of the C5 counterexample. -/
def c5Store : Store :=
  { profiles := [c5Referrer, c5Referred], history := [], completions := []
    referrals := [c5Row], nextTaskId := 1, nextReferralId := 2, tick := 0, rng := 0 }

/-- C5 counterexample: after the claim, the stored aggregates are the
old stored values plus 1 and plus 50 (6 and 127), while recomputing
from all of the referrer Referral rows would give 1 and 50 — the code
updates incrementally, not by recomputation. -/
theorem claimReferral_increments_not_recomputes :
    (findProfile (claimReferralBonus c5Store "0xb").1 "0xr").map
      Profile.referralCount = some 6 ∧
    ((claimReferralBonus c5Store "0xb").1.referrals.filter
      (fun r => sqlEq r.referrerWallet "0xr")).length = 1 ∧
    (findProfile (claimReferralBonus c5Store "0xb").1 "0xr").map
      Profile.referralPointsEarned = some 127 ∧
    (((claimReferralBonus c5Store "0xb").1.referrals.filter
      (fun r => sqlEq r.referrerWallet "0xr")).map ReferralRow.referrerPoints).sum = 50 ∧
    ((6 : Int) ≠ 1) ∧ ((127 : Int) ≠ 50) := by
  decide

/-- Witness for the amended C5 at a concrete input. -/
theorem claimReferralBonus_post_witness :
    (claimReferralBonus c5Store "0xb").2.success = true ∧
    (findProfile (claimReferralBonus c5Store "0xb").1 "0xr").map
      Profile.totalPoints = some 50 :=
  ⟨(claimReferralBonus_post c5Store "0xb" c5Row c5Referrer c5Referred rfl rfl rfl rfl
      (by decide)).1,
   by
    have h := (claimReferralBonus_post c5Store "0xb" c5Row c5Referrer c5Referred rfl rfl rfl rfl
      (by decide)).2.2.2.2.1
    simpa using h⟩

theorem addPoints_hist_superset (s : Store) (w : String) (pts : Int) (t : String)
    (d : Option String) :
    ∀ e ∈ (addPoints s w pts t d).1.history,
      e ∈ s.history ∨ (e.transactionType = t ∧ e.pointsChange = pts) := by
  unfold addPoints
  split
  · intro e he
    exact Or.inl he
  · intro e he
    rcases List.mem_append.mp he with h | h
    · exact Or.inl h
    · simp only [List.mem_singleton] at h
      subst h
      exact Or.inr ⟨rfl, rfl⟩

theorem membershipSweepStep_hist (adapter : String → FetchResult)
    (acc : Store × Nat × Nat × Nat) (user : Profile) :
    ∀ e ∈ (membershipSweepStep adapter acc user).1.history,
      e ∈ acc.1.history ∨ (e.transactionType = "discord_verify_revoked" ∧ e.pointsChange = -50) := by
  obtain ⟨s, c, r, er⟩ := acc
  unfold membershipSweepStep
  dsimp only
  split
  · intro e he; exact Or.inl he
  · split
    · intro e he; exact Or.inl he
    · split
      · intro e he
        rcases addPoints_hist_superset _ _ _ _ _ e he with h | h
        · exact Or.inl h
        · exact Or.inr h
      · split
        · intro e he; exact Or.inl he
        · intro e he; exact Or.inl he

theorem foldl_hist_prop {β γ : Type} (body : Store × β → γ → Store × β)
    (Q : HistEntry → Prop)
    (hb : ∀ acc x, ∀ e ∈ (body acc x).1.history, e ∈ acc.1.history ∨ Q e) :
    ∀ (l : List γ) (acc : Store × β), ∀ e ∈ (l.foldl body acc).1.history,
      e ∈ acc.1.history ∨ Q e := by
  intro l
  induction l with
  | nil => intro acc e he; exact Or.inl he
  | cons x tl ih =>
    intro acc e he
    rcases ih (body acc x) e he with h | h
    · exact hb acc x e h
    · exact Or.inr h

/-- C7 amended: the single-wallet reconciliation path deducts the
historically granted verify bonus (fallback 50) on a confirmed 404,
while the batch sweep appends only flat -50 discord_verify_revoked
entries. -/
theorem membership_reconciliation_deductions :
    (∀ (s : Store) (w : String) (p : Profile) (did : String),
      findProfile s w = some p → p.discordVerified = true → p.discordId = some did →
      (checkUserDiscordMembership s w (FetchResult.response 404)).1.history = s.history ++
        [⟨w, "discord_verify_revoked", -(getOriginalBonusPoints s w "discord_verify" 50),
          p.totalPoints - getOriginalBonusPoints s w "discord_verify" 50,
          some ("Discord server verification revoked - left server (-" ++
            toString (getOriginalBonusPoints s w "discord_verify" 50) ++ "pt)"), s.tick⟩] ∧
      (checkUserDiscordMembership s w (FetchResult.response 404)).2 = (false, true)) ∧
    (∀ (s : Store) (adapter : String → FetchResult), ∀ e ∈
      (checkDiscordServerMemberships s adapter).1.history,
      e ∈ s.history ∨ (e.transactionType = "discord_verify_revoked" ∧ e.pointsChange = -50)) := by
  constructor
  · intro s w p did hp hdv hid
    unfold checkUserDiscordMembership
    rw [hp]
    simp only [hdv, hid, Bool.not_true, Option.isNone_some, Bool.or_self, Bool.false_eq_true,
      if_false]
    set fd : Profile → Profile := (fun q =>
      { q with discordVerified := false, discordVerifiedAt := none, updatedAt := s.tick }) with hfd
    set s1 : Store := updProfile s w fd with hs1
    have h1h : s1.history = s.history := rfl
    have h1t : s1.tick = s.tick := rfl
    have hfp1 : findProfile s1 w = some (fd p) :=
      findProfile_updProfile_self fd (fun q => rfl) hp
    have hv1 : getOriginalBonusPoints s1 w "discord_verify" 50 =
        getOriginalBonusPoints s w "discord_verify" 50 :=
      getOriginalBonusPoints_historyEq s s1 w "discord_verify" 50 h1h
    rw [hv1]
    set v : Int := getOriginalBonusPoints s w "discord_verify" 50 with hvv
    obtain ⟨hh2, -, -, -, -, -, -⟩ := addPoints_effects (-v) "discord_verify_revoked"
      (some ("Discord server verification revoked - left server (-" ++ toString v ++ "pt)")) hfp1
    simp only [beq_self_eq_true, eq_self_iff_true, if_true]
    refine ⟨?_, trivial⟩
    rw [hh2, h1h, h1t]
    dsimp only
    simp only [Int.sub_eq_add_neg]
  · intro s adapter e he
    exact foldl_hist_prop _ _ (membershipSweepStep_hist adapter) _ _ e he

/-- The verified profile of the C7 counterexample, whose historical
discord_verify grant was 70 points. -/
def c7Profile : Profile :=
  { walletAddress := "0xv", chainType := "evm", totalPoints := 70
    connectBonusClaimed := false
    xConnected := false, xUsername := none, xConnectedAt := none
    discordConnected := true, discordUsername := some "v", discordId := some "d7"
    discordConnectedAt := some 0, discordVerified := true, discordVerifiedAt := some 0
    referralCode := none, referredBy := none
    referralCount := 0, referralPointsEarned := 0, createdAt := 0, updatedAt := 0 }

/-- The store of the C7 counterexample. -/
def c7Store : Store :=
  { profiles := [c7Profile]
    history := [⟨"0xv", "discord_verify", 70, 70, none, 0⟩]
    completions := [], referrals := []
    nextTaskId := 1, nextReferralId := 1, tick := 1, rng := 0 }

/-- C7 counterexample: the historically granted verify bonus is 70, the
single-wallet path deducts 70, but the batch sweep deducts a flat 50 on
the same wallet — the batch does not use the historical lookup. -/
theorem membership_sweep_deducts_flat_fifty :
    getOriginalBonusPoints c7Store "0xv" "discord_verify" 50 = 70 ∧
    ((checkUserDiscordMembership c7Store "0xv" (FetchResult.response 404)).1.history.getLast?).map
      HistEntry.pointsChange = some (-70) ∧
    ((checkDiscordServerMemberships c7Store (fun _ => FetchResult.response 404)).1.history.getLast?).map
      HistEntry.pointsChange = some (-50) ∧
    ((-50 : Int) ≠ -70) := by
  decide

/-- Witness for the amended C7 at a concrete input. -/
theorem membership_reconciliation_deductions_witness :
    (checkUserDiscordMembership c7Store "0xv" (FetchResult.response 404)).2 = (false, true) :=
  (membership_reconciliation_deductions.1 c7Store "0xv" c7Profile "d7" rfl rfl rfl).2

/-! ### C2: refund round-trip for X connect/disconnect -/

/-- Referrer profile of the C2 counterexample: owns code REFC2 and is
eligible. -/
def c2Referrer : Profile :=
  { walletAddress := "0xg", chainType := "evm", totalPoints := 0
    connectBonusClaimed := false
    xConnected := true, xUsername := some "g", xConnectedAt := some 0
    discordConnected := true, discordUsername := some "gd", discordId := some "dg"
    discordConnectedAt := some 0, discordVerified := true, discordVerifiedAt := some 0
    referralCode := some "REFC2", referredBy := none
    referralCount := 0, referralPointsEarned := 0, createdAt := 0, updatedAt := 0 }

/-- Referred profile of the C2 counterexample: applied REFC2, the bonus
is not yet claimed, X not yet connected. -/
def c2Referred : Profile :=
  { walletAddress := "0xb2", chainType := "evm", totalPoints := 0
    connectBonusClaimed := false
    xConnected := false, xUsername := none, xConnectedAt := none
    discordConnected := false, discordUsername := none, discordId := none
    discordConnectedAt := none, discordVerified := false, discordVerifiedAt := none
    referralCode := none, referredBy := some "REFC2"
    referralCount := 0, referralPointsEarned := 0, createdAt := 0, updatedAt := 0 }

/-- The unclaimed referral row of the C2 counterexample. -/
def c2Row : ReferralRow :=
  { id := 1, referrerWallet := "0xg", referredWallet := "0xb2"
    referralCode := "REFC2", referrerPoints := 0, referredPoints := 0
    referrerClaimed := false, referredClaimed := false, createdAt := 0, claimedAt := none }

/-- The C2 counterexample store. -/
def c2Store : Store :=
  { profiles := [c2Referrer, c2Referred], history := [], completions := []
    referrals := [c2Row], nextTaskId := 1, nextReferralId := 2, tick := 0, rng := 0 }

/-- C2 counterexample: connectXAccount runs the referral auto-claim as a
side effect, and disconnectXAccount does not reverse it.  On a wallet
that applied a referral code and has not yet claimed the bonus, a
successful connect (+100, then auto-claim +50) followed immediately by
a successful disconnect (-100, from the historical x_connect entry)
leaves totalPoints at 50, not at its pre-connect value 0 — the pair is
not a net-zero round trip for such wallets. -/
theorem connectX_roundtrip_not_neutral :
    (connectXAccount c2Store "0xb2" "bob").2.success = true ∧
    (disconnectXAccount (connectXAccount c2Store "0xb2" "bob").1 "0xb2").2.success = true ∧
    (findProfile c2Store "0xb2").map Profile.totalPoints = some 0 ∧
    (findProfile (disconnectXAccount (connectXAccount c2Store "0xb2" "bob").1 "0xb2").1
      "0xb2").map Profile.totalPoints = some 50 := by decide

/-- C2 (amended): for a wallet with X not connected and no pending
referral attribution (referredBy = none), a connect immediately
followed by a disconnect succeeds on both calls and restores
totalPoints to its pre-connect value; and in all cases the disconnect
deducts exactly the amount of the most recent x_connect history entry
for that wallet (the historical grant, not a configured constant),
appending a single x_disconnect ledger entry of that negated amount.
The unqualified round trip of the original claim fails when the connect
triggers the referral auto-claim (see the counterexample). -/
theorem refund_roundtrip :
    (∀ (s : Store) (w u : String) (p : Profile),
      findProfile s w = some p → p.xConnected = false → p.referredBy = none →
      (connectXAccount s w u).2.success = true ∧
      (disconnectXAccount (connectXAccount s w u).1 w).2.success = true ∧
      (findProfile (disconnectXAccount (connectXAccount s w u).1 w).1 w).map
        Profile.totalPoints = some p.totalPoints) ∧
    (∀ (s : Store) (w : String) (p : Profile),
      findProfile s w = some p → p.xConnected = true →
      (disconnectXAccount s w).1.history = s.history ++
        [⟨w, "x_disconnect", -(getOriginalBonusPoints s w "x_connect" 100),
          p.totalPoints - getOriginalBonusPoints s w "x_connect" 100,
          some ("Disconnected X account (-" ++
            toString (getOriginalBonusPoints s w "x_connect" 100) ++ "pt)"), s.tick⟩]) := by
  constructor
  · intro s w u p hp hx0 hrb
    unfold connectXAccount disconnectXAccount
    rw [hp]
    simp only [hx0, Bool.false_eq_true, if_false]
    set fc : Profile → Profile := (fun q =>
      { q with xConnected := true, xUsername := some u,
               xConnectedAt := some s.tick, updatedAt := s.tick }) with hfc
    set s1 : Store := updProfile s w fc with hs1
    have hfp1 : findProfile s1 w = some (fc p) :=
      findProfile_updProfile_self fc (fun q => rfl) hp
    obtain ⟨hh2, ht2, -, -, hfp2, -, -⟩ := addPoints_effects 100 "x_connect"
      (some ("Connected X account: @" ++ u)) hfp1
    set t2 : Store := (addPoints s1 w 100 "x_connect"
      (some ("Connected X account: @" ++ u))).1 with ht2d
    obtain ⟨hg_h, hg_t, hg_f⟩ := maybeGenerateReferralCode_char t2 w
    obtain ⟨q2, hq2, hq2wa, hq2tp, hq2x, hq2rb, -, -⟩ := hg_f w _ hfp2
    set t3 : Store := maybeGenerateReferralCode t2 w with ht3d
    have hq2rbn : q2.referredBy = none := hq2rb.trans hrb
    have hnoop : maybeClaimReferralBonus t3 w = t3 :=
      maybeClaimReferralBonus_noop hq2 hq2rbn
    rw [hnoop, hq2]
    have hq2xT : q2.xConnected = true := by rw [hq2x]
    simp only [hq2xT, Bool.not_true, Bool.false_eq_true, if_false]
    have hlook : getOriginalBonusPoints (updProfile t3 w (fun q =>
        { q with xConnected := false, xUsername := none, xConnectedAt := none,
                 updatedAt := t3.tick })) w "x_connect" 100 = 100 := by
      have h1 : getOriginalBonusPoints (updProfile t3 w (fun q =>
          { q with xConnected := false, xUsername := none, xConnectedAt := none,
                   updatedAt := t3.tick })) w "x_connect" 100 =
          getOriginalBonusPoints t3 w "x_connect" 100 :=
        getOriginalBonusPoints_historyEq t3 _ w "x_connect" 100 rfl
      have h2 : getOriginalBonusPoints t3 w "x_connect" 100 =
          getOriginalBonusPoints t2 w "x_connect" 100 :=
        getOriginalBonusPoints_historyEq t2 t3 w "x_connect" 100 hg_h
      have h3 : getOriginalBonusPoints t2 w "x_connect" 100 =
          if (100 : Int) > 0 then 100 else 100 := by
        refine getOriginalBonusPoints_append_match s1 t2 _ w "x_connect" 100 hh2 ?_
        simp only [Bool.and_eq_true]
        exact ⟨sqlEq_iff.mpr rfl, sqlEq_iff.mpr rfl⟩
      rw [h1, h2, h3]
      decide
    rw [hlook]
    set fd : Profile → Profile := (fun q =>
      { q with xConnected := false, xUsername := none, xConnectedAt := none,
               updatedAt := t3.tick }) with hfd
    set s4 : Store := updProfile t3 w fd with hs4
    have hfp4 : findProfile s4 w = some (fd q2) :=
      findProfile_updProfile_self fd (fun q => rfl) hq2
    obtain ⟨-, -, -, -, hfp5, -, -⟩ := addPoints_effects (-(100 : Int)) "x_disconnect"
      (some ("Disconnected X account (-" ++ toString (100 : Int) ++ "pt)")) hfp4
    refine ⟨trivial, trivial, ?_⟩
    rw [hfp5]
    dsimp only [Option.map]
    have hq2tp' : q2.totalPoints = p.totalPoints + 100 := hq2tp
    congr 1
    show q2.totalPoints + -100 = p.totalPoints
    rw [hq2tp']
    omega
  · intro s w p hp hx
    unfold disconnectXAccount
    rw [hp]
    simp only [hx, Bool.not_true, Bool.false_eq_true, if_false]
    set fd : Profile → Profile := (fun q =>
      { q with xConnected := false, xUsername := none, xConnectedAt := none,
               updatedAt := s.tick }) with hfd
    set s1 : Store := updProfile s w fd with hs1
    have h1h : s1.history = s.history := rfl
    have h1t : s1.tick = s.tick := rfl
    have hfp1 : findProfile s1 w = some (fd p) :=
      findProfile_updProfile_self fd (fun q => rfl) hp
    have hc1 : getOriginalBonusPoints s1 w "x_connect" 100 =
        getOriginalBonusPoints s w "x_connect" 100 :=
      getOriginalBonusPoints_historyEq s s1 w "x_connect" 100 h1h
    rw [hc1]
    set c : Int := getOriginalBonusPoints s w "x_connect" 100 with hc
    obtain ⟨hh2, -, -, -, -, -, -⟩ := addPoints_effects (-c) "x_disconnect"
      (some ("Disconnected X account (-" ++ toString c ++ "pt)")) hfp1
    rw [hh2, h1h, h1t]
    dsimp only
    simp only [Int.sub_eq_add_neg]

/-- Witness profile for the amended C2: X not connected, no pending
referral. -/
def c2W : Profile :=
  { walletAddress := "0xw", chainType := "evm", totalPoints := 7
    connectBonusClaimed := false
    xConnected := false, xUsername := none, xConnectedAt := none
    discordConnected := false, discordUsername := none, discordId := none
    discordConnectedAt := none, discordVerified := false, discordVerifiedAt := none
    referralCode := none, referredBy := none
    referralCount := 0, referralPointsEarned := 0, createdAt := 0, updatedAt := 0 }

/-- Witness store for the amended C2. -/
def c2WStore : Store :=
  { profiles := [c2W], history := [], completions := []
    referrals := [], nextTaskId := 1, nextReferralId := 1, tick := 0, rng := 0 }

/-- Witness for the amended C2 at a concrete input. -/
theorem refund_roundtrip_witness :
    (connectXAccount c2WStore "0xw" "u").2.success = true ∧
    (disconnectXAccount (connectXAccount c2WStore "0xw" "u").1 "0xw").2.success = true ∧
    (findProfile (disconnectXAccount (connectXAccount c2WStore "0xw" "u").1 "0xw").1
      "0xw").map Profile.totalPoints = some c2W.totalPoints :=
  refund_roundtrip.1 c2WStore "0xw" "u" c2W (by decide) (by decide) (by decide)
